import Mathlib

/-!
# Verification of the multi-model consensus protocol engine

Shallow embedding of the round-based orchestration protocols of the
`proveniq-duel` repository:

* `StrategyDuel.run` (two-party debate, `src/components/intelligence/ReplayPanel.tsx`),
* `SynthesisCascade.run` (three-party generate/critique/synthesize/validate,
  `src/lib/intelligence/synthesis-cascade.ts`),
* `Refinery.refine`, `Refinery.extractCodeBlock`, `Refinery.generateScorecard`
  (`src/lib/intelligence/refinery.ts`).

Texts are embedded as `List Char`.  Backend calls (`LLMProvider.call`) are
modelled by an environment `Env : ModelProvider → system → user →
Except message response`; a resolving backend yields `.ok`, a rejecting one
`.error`.  `Promise.all` fan-outs are embedded left-to-right: when exactly one
of the overlapped calls rejects (the situation the spec's claims address) the
rejection order is immaterial.  Timestamps (`new Date().toISOString()`),
latency measurements (`Date.now()` deltas) and session ids
(`crypto.randomUUID()`) are ambient-environment effects with no influence on
any control flow; they are omitted from the embedded records.  `JSON.parse`
and the `diff` npm package are external libraries, not repository code; they
enter as oracle parameters (`parse`, `diffFn`).
-/

/-- Texts are lists of characters. -/
abbrev Str := List Char

/-- JavaScript whitespace: the character class of the regex `\s` escape and of
`String.prototype.trim` (WhiteSpace ∪ LineTerminator). -/
def isJsWs (c : Char) : Bool :=
  c = ' ' || c = '\t' || c = '\n' || c = '\r' || c = '\x0b' || c = '\x0c' ||
  c = '\u00A0' || c = '\u1680' ||
  ('\u2000' ≤ c && c ≤ '\u200A') ||
  c = '\u2028' || c = '\u2029' || c = '\u202F' || c = '\u205F' ||
  c = '\u3000' || c = '\uFEFF'

/-- JS `String.prototype.trim`: strip JS whitespace from both ends. -/
def trimJs (s : Str) : Str :=
  ((s.dropWhile isJsWs).reverse.dropWhile isJsWs).reverse

/-- Test whether `needle` occurs at the start of `hay` (character-exact). -/
def strStarts : Str → Str → Bool
  | [], _ => true
  | _ :: _, [] => false
  | n :: ns, h :: hs => n = h && strStarts ns hs

/-- Test whether `needle` occurs at the start of `hay`, ASCII case-insensitively
(the behaviour of a `/i` regex on the ASCII tokens used by the code). -/
def strStartsCI : Str → Str → Bool
  | [], _ => true
  | _ :: _, [] => false
  | n :: ns, h :: hs => n.toUpper = h.toUpper && strStartsCI ns hs

/-- Split `hay` around the first (leftmost) occurrence of `needle`:
`some (before, after)` with `hay = before ++ needle ++ after`, scanning left to
right exactly like `String.prototype.indexOf`. -/
def splitFirst (needle : Str) : Str → Option (Str × Str)
  | [] => if needle.isEmpty then some ([], []) else none
  | c :: cs =>
    if strStarts needle (c :: cs) then some ([], (c :: cs).drop needle.length)
    else
      match splitFirst needle cs with
      | some (b, a) => some (c :: b, a)
      | none => none

/-- JS `String.prototype.includes` (case-sensitive substring test). -/
def strContains (needle hay : Str) : Bool :=
  (splitFirst needle hay).isSome

/-- JS `String.prototype.replace` with a string pattern: replace the first
occurrence only.  (The `$`-substitution syntax of JS replacement strings is
never exercised by the embedded call sites, whose replacements are plain.) -/
def replaceFirst (needle repl hay : Str) : Str :=
  match splitFirst needle hay with
  | some (b, a) => b ++ repl ++ a
  | none => hay

/-- JS `String.prototype.replace` with a `/g` string-literal regex: replace every
non-overlapping occurrence, left to right, resuming after each replacement. -/
def replaceAllAux : Nat → Str → Str → Str → Str
  | 0, _, _, hay => hay
  | fuel + 1, needle, repl, hay =>
    match splitFirst needle hay with
    | some (b, a) => b ++ repl ++ replaceAllAux fuel needle repl a
    | none => hay

def replaceAll (needle repl hay : Str) : Str :=
  replaceAllAux (hay.length + 1) needle repl hay

/-- JS `toUpperCase` (all embedded uses involve ASCII tokens only). -/
def upperStr (s : Str) : Str := s.map Char.toUpper

/-- The test `s.toUpperCase().includes(needle)`: the case-insensitive sentinel test the
code uses for `[CONVERGED]`. -/
def strContainsUpper (needle hay : Str) : Bool :=
  strContains needle (upperStr hay)

section SplitFirstLemmas

theorem strStarts_iff (n h : Str) : strStarts n h = true ↔ n <+: h := by
  induction n generalizing h with
  | nil => simp [strStarts]
  | cons x xs ih =>
    cases h with
    | nil => simp [strStarts]
    | cons y ys =>
      simp only [strStarts, Bool.and_eq_true, decide_eq_true_eq, ih,
        List.cons_prefix_cons]

theorem splitFirst_eq {needle hay b a : Str}
    (h : splitFirst needle hay = some (b, a)) : hay = b ++ needle ++ a := by
  induction hay generalizing b a with
  | nil =>
    rw [splitFirst] at h
    by_cases hn : needle.isEmpty
    · rw [if_pos hn] at h
      injection h with h'
      injection h' with hb ha
      simp [List.isEmpty_iff.mp hn, ← hb, ← ha]
    · rw [if_neg hn] at h
      exact absurd h (by simp)
  | cons c cs ih =>
    by_cases hs : strStarts needle (c :: cs) = true
    · rw [splitFirst, if_pos hs] at h
      obtain ⟨t, ht⟩ := (strStarts_iff _ _).mp hs
      injection h with h'
      injection h' with hb ha
      subst hb
      have : (c :: cs).drop needle.length = t := by
        rw [← ht, List.drop_left]
      rw [← ha, this, List.nil_append, ht]
    · rw [splitFirst, if_neg hs] at h
      cases hrec : splitFirst needle cs with
      | none => rw [hrec] at h; exact absurd h (by simp)
      | some p =>
        obtain ⟨b', a'⟩ := p
        rw [hrec] at h
        injection h with h'
        injection h' with hb ha
        subst ha
        have := ih hrec
        rw [← hb]
        simp [this]

theorem splitFirst_none {needle hay : Str}
    (h : splitFirst needle hay = none) : ¬ needle <:+: hay := by
  induction hay with
  | nil =>
    intro hin
    have : needle = [] := by simpa using List.eq_nil_of_infix_nil hin
    simp [splitFirst, this] at h
  | cons c cs ih =>
    intro hin
    by_cases hs : strStarts needle (c :: cs) = true
    · simp [splitFirst, hs] at h
    · rw [splitFirst, if_neg hs] at h
      cases hrec : splitFirst needle cs with
      | some p => obtain ⟨b', a'⟩ := p; simp [hrec] at h
      | none =>
        rcases hin with ⟨b, a, hba⟩
        cases b with
        | nil =>
          exact hs ((strStarts_iff _ _).mpr ⟨a, by simpa using hba⟩)
        | cons x xs =>
          refine ih hrec ⟨xs, a, ?_⟩
          have h2 := hba
          simp only [List.cons_append, List.cons.injEq] at h2
          exact h2.2

theorem strContains_iff_infix (needle hay : Str) :
    strContains needle hay = true ↔ needle <:+: hay := by
  unfold strContains
  cases hsp : splitFirst needle hay with
  | none => simpa using splitFirst_none hsp
  | some p =>
    obtain ⟨b, a⟩ := p
    have := splitFirst_eq hsp
    simp only [Option.isSome_some, true_iff]
    exact ⟨b, a, by rw [← this]⟩

/-- Minimality: `splitFirst` finds the leftmost occurrence. -/
theorem splitFirst_min {needle hay b a : Str}
    (h : splitFirst needle hay = some (b, a)) :
    ∀ b' a', hay = b' ++ needle ++ a' → b.length ≤ b'.length := by
  induction hay generalizing b a with
  | nil =>
    intro b' a' hba
    rw [splitFirst] at h
    by_cases hn : needle.isEmpty
    · rw [if_pos hn] at h
      injection h with h'
      injection h' with hb ha
      simp [← hb]
    · rw [if_neg hn] at h
      exact absurd h (by simp)
  | cons c cs ih =>
    intro b' a' hba
    by_cases hs : strStarts needle (c :: cs) = true
    · rw [splitFirst, if_pos hs] at h
      injection h with h'
      injection h' with hb _
      simp [← hb]
    · rw [splitFirst, if_neg hs] at h
      cases hrec : splitFirst needle cs with
      | none => rw [hrec] at h; exact absurd h (by simp)
      | some p =>
        obtain ⟨b₀, a₀⟩ := p
        rw [hrec] at h
        injection h with h'
        injection h' with hb _
        cases b' with
        | nil =>
          exact absurd ((strStarts_iff _ _).mpr ⟨a', by simpa using hba.symm⟩) hs
        | cons x xs =>
          have hcs : cs = xs ++ needle ++ a' := by
            have h2 := hba
            simp only [List.cons_append, List.cons.injEq] at h2
            exact h2.2
          have h3 := ih hrec xs a' hcs
          rw [← hb]
          simp only [List.length_cons]
          omega

end SplitFirstLemmas

/-! ## Artifact extraction (`Refinery.extractCodeBlock`)

Embeds the scan of `/```[\w\-\+]*\s*([\s\S]*?)```/g` via `matchAll`:
at each position where a triple-backtick fence opens, the greedy language tag
(`[\w\-\+]*`) and whitespace run are skipped (backticks belong to neither
class, so maximal munch is exact), the lazy group extends to the next fence,
and scanning resumes after the closing fence; an opening with no closing makes
the engine resume one character later. -/

/-- The triple-backtick fence delimiter. -/
def FENCE : Str := ['\x60', '\x60', '\x60']

/-- The character class `[\w\-\+]` of the fence regex's language tag. -/
def isLangChar (c : Char) : Bool :=
  c.isAlphanum || c = '_' || c = '-' || c = '+'


/-- All inner contents of fenced blocks, in order of occurrence (the capture
groups produced by `text.matchAll(codeFenceRegex)`).  The fuel argument only
bounds the recursion; `fenceMatches` supplies enough. -/
def fenceMatchesAux : Nat → Str → List Str
  | 0, _ => []
  | _ + 1, [] => []
  | fuel + 1, c :: cs =>
    if strStarts FENCE (c :: cs) then
      match splitFirst FENCE
          ((((c :: cs).drop 3).dropWhile isLangChar).dropWhile isJsWs) with
      | some (content, after) => content :: fenceMatchesAux fuel after
      | none => fenceMatchesAux fuel cs
    else fenceMatchesAux fuel cs

def fenceMatches (s : Str) : List Str := fenceMatchesAux s.length s

/-- Embeds `Refinery.extractCodeBlock` (refinery.ts:89-100): last fenced block's
trimmed content when any fence matches, otherwise the whole trimmed input. -/
def extractCodeBlock (text : Str) : Str × Bool :=
  match (fenceMatches text).getLast? with
  | none => (trimJs text, false)
  | some m => (trimJs m, true)

/-- Declarative reading of "the input contains a triple-backtick fenced
block": an opening fence is followed, later and disjointly, by a closing
fence. -/
def hasFencedBlock (s : Str) : Prop :=
  ∃ u v w, s = u ++ FENCE ++ v ++ FENCE ++ w

theorem fenceMatchesAux_step (fuel : Nat) (c : Char) (cs : Str) :
    fenceMatchesAux (fuel + 1) (c :: cs) =
      if strStarts FENCE (c :: cs) then
        match splitFirst FENCE
            ((((c :: cs).drop 3).dropWhile isLangChar).dropWhile isJsWs) with
        | some (content, after) => content :: fenceMatchesAux fuel after
        | none => fenceMatchesAux fuel cs
      else fenceMatchesAux fuel cs := rfl

theorem dropWhile_keeps {p : Char → Bool} {x : Char} (hx : p x = false)
    (v t : Str) : ∃ v₂, List.dropWhile p (v ++ x :: t) = v₂ ++ x :: t := by
  induction v with
  | nil => exact ⟨[], by simp [List.dropWhile_cons, hx]⟩
  | cons a v' ih =>
    by_cases ha : p a = true
    · simpa [List.dropWhile_cons, ha] using ih
    · exact ⟨a :: v', by simp [List.dropWhile_cons, ha]⟩

theorem fenceMatchesAux_ne_nil_of_block :
    ∀ fuel s, s.length ≤ fuel → hasFencedBlock s →
      fenceMatchesAux fuel s ≠ [] := by
  intro fuel
  induction fuel with
  | zero =>
    intro s hlen hblk
    rcases hblk with ⟨u, v, w, rfl⟩
    simp [FENCE] at hlen
  | succ fuel ih =>
    intro s hlen hblk
    rcases hblk with ⟨u, v, w, rfl⟩
    cases u with
    | nil =>
      have hcons : ([] : Str) ++ FENCE ++ v ++ FENCE ++ w
          = '\x60' :: ('\x60' :: '\x60' :: (v ++ FENCE ++ w)) := by
        simp [FENCE]
      rw [hcons, fenceMatchesAux_step]
      have hstart : strStarts FENCE
          ('\x60' :: ('\x60' :: '\x60' :: (v ++ FENCE ++ w))) = true := by
        rw [strStarts_iff]
        exact ⟨v ++ FENCE ++ w, by simp [FENCE]⟩
      rw [if_pos hstart]
      have hdrop3 : ('\x60' :: ('\x60' :: '\x60' :: (v ++ FENCE ++ w))).drop 3
          = v ++ FENCE ++ w := by simp
      have hbt1 : isLangChar '\x60' = false := by decide
      have hbt2 : isJsWs '\x60' = false := by decide
      have hfw : v ++ FENCE ++ w
          = v ++ '\x60' :: ('\x60' :: '\x60' :: w) := by simp [FENCE]
      obtain ⟨v₂, hv₂⟩ := dropWhile_keeps hbt1 v ('\x60' :: '\x60' :: w)
      obtain ⟨v₃, hv₃⟩ := dropWhile_keeps hbt2 v₂ ('\x60' :: '\x60' :: w)
      rw [hdrop3, hfw, hv₂, hv₃]
      cases hsp : splitFirst FENCE (v₃ ++ '\x60' :: ('\x60' :: '\x60' :: w)) with
      | none =>
        exact absurd ⟨v₃, w, by simp [FENCE]⟩ (splitFirst_none hsp)
      | some p => simp
    | cons c u' =>
      have hcs : hasFencedBlock (u' ++ FENCE ++ v ++ FENCE ++ w) :=
        ⟨u', v, w, rfl⟩
      have hlen' : (u' ++ FENCE ++ v ++ FENCE ++ w).length ≤ fuel := by
        simp only [List.cons_append, List.length_cons] at hlen
        omega
      have htail := ih _ hlen' hcs
      have hcons : (c :: u') ++ FENCE ++ v ++ FENCE ++ w
          = c :: (u' ++ FENCE ++ v ++ FENCE ++ w) := by simp
      rw [hcons, fenceMatchesAux_step]
      by_cases hs : strStarts FENCE
          (c :: (u' ++ FENCE ++ v ++ FENCE ++ w)) = true
      · rw [if_pos hs]
        cases hsp : splitFirst FENCE
            (((((c :: (u' ++ FENCE ++ v ++ FENCE ++ w))).drop 3).dropWhile
              isLangChar).dropWhile isJsWs) with
        | none => simpa using htail
        | some p => simp
      · rw [if_neg hs]
        simpa using htail

theorem fenceMatchesAux_block_of_ne_nil :
    ∀ fuel s, fenceMatchesAux fuel s ≠ [] → hasFencedBlock s := by
  intro fuel
  induction fuel with
  | zero => intro s h; simp [fenceMatchesAux] at h
  | succ fuel ih =>
    intro s h
    cases s with
    | nil => simp [fenceMatchesAux] at h
    | cons c cs =>
      rw [fenceMatchesAux_step] at h
      by_cases hs : strStarts FENCE (c :: cs) = true
      · rw [if_pos hs] at h
        obtain ⟨t, ht⟩ := (strStarts_iff _ _).mp hs
        cases hsp : splitFirst FENCE
            ((((c :: cs).drop 3).dropWhile isLangChar).dropWhile isJsWs) with
        | none =>
          rw [hsp] at h
          rcases ih cs h with ⟨u, v, w, hu⟩
          exact ⟨c :: u, v, w, by rw [hu]; simp⟩
        | some p =>
          obtain ⟨content, after⟩ := p
          have hrest := splitFirst_eq hsp
          have hc : c :: cs = FENCE ++ (c :: cs).drop 3 := by
            rw [show (c :: cs).drop 3 = t by
              rw [← ht, List.drop_left' (by simp [FENCE])], ← ht]
          refine ⟨[], (((c :: cs).drop 3).takeWhile isLangChar)
            ++ ((((c :: cs).drop 3).dropWhile isLangChar).takeWhile isJsWs)
            ++ content, after, ?_⟩
          set d := (c :: cs).drop 3 with hd
          set e := d.dropWhile isLangChar with he
          set rest := e.dropWhile isJsWs with hrw
          have e1 := List.takeWhile_append_dropWhile isLangChar d
          rw [← he] at e1
          have e2 := List.takeWhile_append_dropWhile isJsWs e
          rw [← hrw] at e2
          conv_lhs => rw [hc, ← e1, ← e2, hrest]
          simp [List.append_assoc]
      · rw [if_neg hs] at h
        rcases ih cs h with ⟨u, v, w, hu⟩
        exact ⟨c :: u, v, w, by rw [hu]; simp⟩

/-- The regex scan finds a match exactly when the input has a fenced block. -/
theorem fenceMatches_ne_nil_iff (s : Str) :
    fenceMatches s ≠ [] ↔ hasFencedBlock s := by
  constructor
  · exact fenceMatchesAux_block_of_ne_nil s.length s
  · exact fenceMatchesAux_ne_nil_of_block s.length s le_rfl

/-! ## Vote parsing, judge JSON extraction -/

/-- Embeds `content.match(/VOTE:\s*(ACCEPT|REJECT)/i)` followed by the test
`match[1].toUpperCase() === "ACCEPT"` (synthesis-cascade.ts:354,360):
`some true`/`some false` when the leftmost completed match captures
ACCEPT/REJECT, `none` when the regex does not match at all.  When a `VOTE:`
occurrence is not followed (after whitespace) by either alternative the
engine resumes the search one character later, as the recursion does. -/
def voteScan : Str → Option Bool
  | [] => none
  | c :: cs =>
    if strStartsCI ("VOTE:".toList) (c :: cs) then
      if strStartsCI ("ACCEPT".toList) (((c :: cs).drop 5).dropWhile isJsWs) then
        some true
      else if strStartsCI ("REJECT".toList)
          (((c :: cs).drop 5).dropWhile isJsWs) then
        some false
      else voteScan cs
    else voteScan cs

/-- Embeds `content.match(/REASONING:\s*([\s\S]*)/i)` (synthesis-cascade.ts:355):
the captured group of the leftmost match, if any. -/
def reasoningScan : Str → Option Str
  | [] => none
  | c :: cs =>
    if strStartsCI ("REASONING:".toList) (c :: cs) then
      some (((c :: cs).drop 10).dropWhile isJsWs)
    else reasoningScan cs

/-- Embeds `rawResponse.match(/\{[\s\S]*\})/`-style greedy extraction
(refinery.ts:310): the substring from the leftmost opening brace to the
rightmost closing brace, provided the latter lies after the former. -/
def extractBraced (s : Str) : Option Str :=
  match splitFirst ['\x7b'] s with
  | none => none
  | some (_, afterOpen) =>
    match splitFirst ['\x7d'] afterOpen.reverse with
    | none => none
    | some (_, revInner) => some ('\x7b' :: (revInner.reverse ++ ['\x7d']))

/-! ## Data model

Record types from `src/lib/intelligence/types.ts`.  Fields holding
timestamps, latencies and randomly generated ids are omitted (they never
influence control flow); all other fields are kept. -/

inductive ModelProvider
  | gemini
  | openai
  | claude
deriving DecidableEq, BEq

/-- Session status; `running` → `completed` | `error`. -/
inductive SessionStatus
  | running
  | completed
  | error
deriving DecidableEq, BEq

/-- A backend environment: provider, system instruction, user payload to
response; `.error m` models a rejected `LLMProvider.call` promise with
message `m`, `.ok` a resolved one. -/
abbrev Env := ModelProvider → Str → Str → Except Str Str

/-- An environment built from a total response function: every backend call
resolves. -/
def okEnv (f : ModelProvider → Str → Str → Str) : Env :=
  fun p sys u => .ok (f p sys u)

/-- The optional caller configuration (`IntelligenceConfig`); `temperature`
only parameterizes backend construction and is omitted. -/
structure IntelligenceConfig where
  geminiModel : Option Str := none
  openaiModel : Option Str := none
  maxIterations : Option Nat := none

/-! ## Debate protocol (`StrategyDuel`, ReplayPanel.tsx:641-749) -/

structure DuelTurn where
  provider : ModelProvider
  model : Str
  content : Str
  isAgreement : Bool
deriving DecidableEq

structure DuelRound where
  index : Nat
  turns : List DuelTurn
deriving DecidableEq

structure DuelSession where
  topic : Str
  rounds : List DuelRound
  status : SessionStatus
  consensus : Option Str := none
  error : Option Str := none
deriving DecidableEq

/-- The debate agreement sentinel. -/
def agreeToken : Str := "[AGREE]".toList

def SYSTEM_PROMPT_OPENER : Str :=
  ("\nYou are a strategic advisor participating in a high-stakes debate.\nYour goal is to provide the most insightful, robust, and actionable strategy for the user's topic.\n\nTopic:\n\x7b\x7bTOPIC\x7d\x7d\n\nProvide your initial strategic analysis. Be bold, specific, and comprehensive.\n").toList

def SYSTEM_PROMPT_DEBATER : Str :=
  ("\nYou are a strategic advisor in a debate. You have just heard an argument from your counterpart.\n\nCounterpart's Argument:\n\x7b\x7bOPPONENT_ARGUMENT\x7d\x7d\n\nYour goal is to:\n1. Critically analyze their points. Identify weaknesses, blind spots, or generic advice.\n2. Defend your previous position if it was strong, or pivot if they made a better point.\n3. Propose a refined strategy that incorporates the best of both views but maintains your unique perspective.\n4. If you believe you and your counterpart have reached a solid consensus and no further debate will add value, start your response with \"[AGREE]\".\n\nFocus on synthesis and elevation of the strategy. Do not just argue for the sake of arguing.\n").toList

/-- The fixed trailing advisory block appended to both consensus narratives
(`TOOLING_DECISION_RULE`, ReplayPanel.tsx).  In the source this is a long
static markdown document; no protocol logic reads it and no theorem below
depends on its value, so only its heading line is reproduced. -/
def TOOLING_DECISION_RULE : Str :=
  ("\n## Tooling Decision (Locked)\n[static advisory text elided]\n").toList

/-- Embeds `StrategyDuel.generateTurn` (ReplayPanel.tsx:652-675); model
resolution from the config happens at the call sites below, as in the source
constructor. -/
def generateTurn (env : Env) (providerType : ModelProvider) (modelName : Str)
    (prompt system : Str) : Except Str DuelTurn :=
  match env providerType system prompt with
  | .error m => .error m
  | .ok rawResponse =>
    let isAgreement := strContains agreeToken rawResponse
    let content :=
      if isAgreement then trimJs (replaceFirst agreeToken [] rawResponse)
      else rawResponse
    .ok { provider := providerType, model := modelName,
          content := content, isAgreement := isAgreement }

def openerPrompt (topic : Str) : Str :=
  ("Please provide your initial strategy for: ".toList) ++ topic

def openerSystem (topic : Str) : Str :=
  replaceFirst ("\x7b\x7bTOPIC\x7d\x7d".toList) topic SYSTEM_PROMPT_OPENER

def rebuttalPrompt : Str := "Your rebuttal/refinement:".toList

def debaterSystem (opponentArgument : Str) : Str :=
  replaceFirst ("\x7b\x7bOPPONENT_ARGUMENT\x7d\x7d".toList) opponentArgument
    SYSTEM_PROMPT_DEBATER

/-- Narrative set on early consensus: `Consensus reached in round ${i + 1}. …`
followed by the static advisory block. -/
def consensusNarrative (i : Nat) : Str :=
  ("Consensus reached in round ".toList) ++ (Nat.repr (i + 1)).toList ++
  (". Both models agreed on a unified strategy.\n\n".toList) ++
  TOOLING_DECISION_RULE

/-- Narrative set when the round budget runs out. -/
def exhaustedNarrative : Str :=
  ("Max rounds reached. Review the final arguments for the most refined strategy.\n\n".toList)
  ++ TOOLING_DECISION_RULE

/-- A running-status observer snapshot: what `onUpdate(session)` sees right
after a round is appended (the status fields are only changed later). -/
def duelSnapshot (topic : Str) (rounds : List DuelRound) : DuelSession :=
  { topic := topic, rounds := rounds, status := .running }

/-- An error session: the `catch` block of `StrategyDuel.run`
(ReplayPanel.tsx:741-745) keeps the rounds already appended. -/
def duelErrorSession (topic : Str) (rounds : List DuelRound) (m : Str) :
    DuelSession :=
  { topic := topic, rounds := rounds, status := .error, error := some m }

/-- The rebuttal loop of `StrategyDuel.run` (ReplayPanel.tsx:708-739).
`fuel` is the number of remaining loop iterations (`maxRounds - i`), `i` the
next round index; both fan-out calls of a round are issued per round, and the
first rejection aborts the session.  Returns the final session and the list
of observer snapshots. -/
def debateLoop (env : Env) (gModel oModel : Str) (topic : Str) :
    Nat → Nat → Str → Str → List DuelRound → List DuelSession →
    DuelSession × List DuelSession
  | 0, _, _, _, rounds, snaps =>
    ({ topic := topic, rounds := rounds, status := .completed,
       consensus := some exhaustedNarrative }, snaps)
  | fuel + 1, i, lastGemini, lastOpenai, rounds, snaps =>
    match generateTurn env .gemini gModel rebuttalPrompt
            (debaterSystem lastOpenai),
          generateTurn env .openai oModel rebuttalPrompt
            (debaterSystem lastGemini) with
    | .error m, _ => (duelErrorSession topic rounds m, snaps)
    | .ok _, .error m => (duelErrorSession topic rounds m, snaps)
    | .ok geminiTurn, .ok openaiTurn =>
      let rounds' := rounds ++ [{ index := i, turns := [geminiTurn, openaiTurn] }]
      let snaps' := snaps ++ [duelSnapshot topic rounds']
      if geminiTurn.isAgreement && openaiTurn.isAgreement then
        ({ topic := topic, rounds := rounds', status := .completed,
           consensus := some (consensusNarrative i) }, snaps')
      else
        debateLoop env gModel oModel topic fuel (i + 1)
          geminiTurn.content openaiTurn.content rounds' snaps'

/-- Embeds `StrategyDuel.run` (ReplayPanel.tsx:677-748): opening round 0 in
parallel, then the rebuttal loop `for (let i = 1; i < maxRounds; i++)`. -/
def runDebate (env : Env) (config : IntelligenceConfig) (topic : Str) :
    DuelSession × List DuelSession :=
  let gModel := config.geminiModel.getD ("gemini-2.5-flash".toList)
  let oModel := config.openaiModel.getD ("gpt-4o".toList)
  match generateTurn env .gemini gModel (openerPrompt topic)
          (openerSystem topic),
        generateTurn env .openai oModel (openerPrompt topic)
          (openerSystem topic) with
  | .error m, _ => (duelErrorSession topic [] m, [])
  | .ok _, .error m => (duelErrorSession topic [] m, [])
  | .ok geminiTurn1, .ok openaiTurn1 =>
    let round1 : DuelRound := { index := 0, turns := [geminiTurn1, openaiTurn1] }
    let maxRounds := config.maxIterations.getD 5
    debateLoop env gModel oModel topic (maxRounds - 1) 1
      geminiTurn1.content openaiTurn1.content
      [round1] [duelSnapshot topic [round1]]

/-- Both turns of a round carry the agreement flag (the consensus test of
ReplayPanel.tsx:729 on a two-turn round). -/
def bothAgree (r : DuelRound) : Bool :=
  r.turns.all (fun t => t.isAgreement)

/-! ## Debate loop lemmas -/

/-- The turn produced by `generateTurn` under a total (never-rejecting)
environment. -/
def mkTurn (f : ModelProvider → Str → Str → Str) (p : ModelProvider)
    (modelName prompt system : Str) : DuelTurn :=
  { provider := p, model := modelName,
    content :=
      if strContains agreeToken (f p system prompt) then
        trimJs (replaceFirst agreeToken [] (f p system prompt))
      else f p system prompt,
    isAgreement := strContains agreeToken (f p system prompt) }

theorem generateTurn_okEnv (f : ModelProvider → Str → Str → Str)
    (p : ModelProvider) (modelName prompt system : Str) :
    generateTurn (okEnv f) p modelName prompt system
      = .ok (mkTurn f p modelName prompt system) := rfl

theorem debateLoop_zero (env : Env) (gM oM topic : Str) (i : Nat)
    (lg lo : Str) (rounds : List DuelRound) (snaps : List DuelSession) :
    debateLoop env gM oM topic 0 i lg lo rounds snaps
      = ({ topic := topic, rounds := rounds, status := .completed,
           consensus := some exhaustedNarrative }, snaps) := rfl

/-- The new round a rebuttal-loop iteration appends under a total
environment. -/
def debateNewRound (f : ModelProvider → Str → Str → Str) (gM oM : Str)
    (i : Nat) (lg lo : Str) : DuelRound :=
  { index := i,
    turns := [mkTurn f .gemini gM rebuttalPrompt (debaterSystem lo),
              mkTurn f .openai oM rebuttalPrompt (debaterSystem lg)] }

theorem debateLoop_okEnv_step (f : ModelProvider → Str → Str → Str)
    (gM oM topic : Str) (fuel i : Nat) (lg lo : Str)
    (rounds : List DuelRound) (snaps : List DuelSession) :
    debateLoop (okEnv f) gM oM topic (fuel + 1) i lg lo rounds snaps =
      if (mkTurn f .gemini gM rebuttalPrompt (debaterSystem lo)).isAgreement
          && (mkTurn f .openai oM rebuttalPrompt (debaterSystem lg)).isAgreement
      then
        ({ topic := topic, rounds := rounds ++ [debateNewRound f gM oM i lg lo],
           status := .completed, consensus := some (consensusNarrative i) },
         snaps ++ [duelSnapshot topic (rounds ++ [debateNewRound f gM oM i lg lo])])
      else
        debateLoop (okEnv f) gM oM topic fuel (i + 1)
          (mkTurn f .gemini gM rebuttalPrompt (debaterSystem lo)).content
          (mkTurn f .openai oM rebuttalPrompt (debaterSystem lg)).content
          (rounds ++ [debateNewRound f gM oM i lg lo])
          (snaps ++ [duelSnapshot topic (rounds ++ [debateNewRound f gM oM i lg lo])])
    := rfl

/-- Main specification of the rebuttal loop under a total environment:
status, indexing, the consensus/continuation behaviour, and the exhaustion
behaviour when the environment never emits the agreement token. -/
theorem debateLoop_ok_spec (f : ModelProvider → Str → Str → Str)
    (gM oM topic : Str) :
    ∀ (fuel i : Nat) (lg lo : Str) (rounds : List DuelRound)
      (snaps : List DuelSession),
      1 ≤ i → i = rounds.length →
      (∀ j (hj : j < rounds.length), rounds[j].index = j) →
      (∀ j (hj : j < rounds.length), 1 ≤ j → bothAgree rounds[j] = false) →
      (debateLoop (okEnv f) gM oM topic fuel i lg lo rounds snaps).1.topic
          = topic ∧
      (debateLoop (okEnv f) gM oM topic fuel i lg lo rounds snaps).1.status
          = .completed ∧
      (debateLoop (okEnv f) gM oM topic fuel i lg lo rounds snaps).1.error
          = none ∧
      rounds.length
        ≤ (debateLoop (okEnv f) gM oM topic fuel i lg lo rounds snaps).1.rounds.length ∧
      (debateLoop (okEnv f) gM oM topic fuel i lg lo rounds snaps).1.rounds.length
        ≤ rounds.length + fuel ∧
      (∀ j (hj : j < (debateLoop (okEnv f) gM oM topic fuel i lg lo rounds snaps).1.rounds.length),
        (debateLoop (okEnv f) gM oM topic fuel i lg lo rounds snaps).1.rounds[j].index = j) ∧
      (∀ j (hj : j < (debateLoop (okEnv f) gM oM topic fuel i lg lo rounds snaps).1.rounds.length),
        1 ≤ j →
        bothAgree (debateLoop (okEnv f) gM oM topic fuel i lg lo rounds snaps).1.rounds[j] = true →
        j + 1 = (debateLoop (okEnv f) gM oM topic fuel i lg lo rounds snaps).1.rounds.length ∧
        (debateLoop (okEnv f) gM oM topic fuel i lg lo rounds snaps).1.consensus
          = some (consensusNarrative j)) ∧
      (∀ j (hj : j < (debateLoop (okEnv f) gM oM topic fuel i lg lo rounds snaps).1.rounds.length),
        bothAgree (debateLoop (okEnv f) gM oM topic fuel i lg lo rounds snaps).1.rounds[j] = false →
        j + 1 < i + fuel →
        j + 2 ≤ (debateLoop (okEnv f) gM oM topic fuel i lg lo rounds snaps).1.rounds.length) ∧
      ((∀ p s u, strContains agreeToken (f p s u) = false) →
        (debateLoop (okEnv f) gM oM topic fuel i lg lo rounds snaps).1.rounds.length
          = rounds.length + fuel ∧
        (debateLoop (okEnv f) gM oM topic fuel i lg lo rounds snaps).1.consensus
          = some exhaustedNarrative) := by
  intro fuel
  induction fuel with
  | zero =>
    intro i lg lo rounds snaps hi1 hi hidx hprev
    rw [debateLoop_zero]
    refine ⟨rfl, rfl, rfl, le_rfl,
      by show rounds.length ≤ rounds.length + 0; omega, hidx, ?_, ?_,
      fun _ => ⟨by show rounds.length = rounds.length + 0; omega, rfl⟩⟩
    · intro j hj h1 hag
      exact absurd hag (by simp [hprev j hj h1])
    · intro j hj hag hlt
      have hj2 : j < rounds.length := hj
      have hlt2 : j + 1 < i + 0 := hlt
      show j + 2 ≤ rounds.length
      omega
  | succ fuel ih =>
    intro i lg lo rounds snaps hi1 hi hidx hprev
    rw [debateLoop_okEnv_step]
    set gT := mkTurn f .gemini gM rebuttalPrompt (debaterSystem lo) with hgT
    set oT := mkTurn f .openai oM rebuttalPrompt (debaterSystem lg) with hoT
    set newRound : DuelRound := debateNewRound f gM oM i lg lo with hNR
    have hNRi : newRound.index = i := rfl
    have hNRagree : bothAgree newRound = (gT.isAgreement && oT.isAgreement) := by
      simp [hNR, debateNewRound, bothAgree, hgT, hoT]
    have hlen' : (rounds ++ [newRound]).length = rounds.length + 1 := by simp
    have hidx' : ∀ j (hj : j < (rounds ++ [newRound]).length),
        (rounds ++ [newRound])[j].index = j := by
      intro j hj
      rcases Nat.lt_or_ge j rounds.length with h | h
      · rw [List.getElem_append_left h]
        exact hidx j h
      · have hj' : j = rounds.length := by
          rw [hlen'] at hj
          omega
        subst hj'
        rw [List.getElem_concat_length _ _ _ rfl]
        omega
    by_cases hcons : (gT.isAgreement && oT.isAgreement) = true
    · rw [if_pos hcons]
      refine ⟨rfl, rfl, rfl, by simp, by simp [hlen'], hidx', ?_, ?_, ?_⟩
      · intro j hj h1 hag
        rcases Nat.lt_or_ge j rounds.length with h | h
        · rw [List.getElem_append_left h] at hag
          exact absurd hag (by simp [hprev j h h1])
        · have hj' : j = rounds.length := by
            simp only [hlen'] at hj
            omega
          subst hj'
          refine ⟨by simp, ?_⟩
          have : i = rounds.length := hi
          rw [← this]
      · intro j hj hag hlt
        rcases Nat.lt_or_ge j rounds.length with h | h
        · simp only [hlen']
          omega
        · have hj' : j = rounds.length := by
            simp only [hlen'] at hj
            omega
          subst hj'
          rw [List.getElem_concat_length _ _ _ rfl] at hag
          rw [hNRagree] at hag
          simp [hcons] at hag
      · intro hf
        exfalso
        have hg : gT.isAgreement = false := by
          simp [hgT, mkTurn, hf]
        rw [hg] at hcons
        simp at hcons
    · rw [if_neg hcons]
      have hprev' : ∀ j (hj : j < (rounds ++ [newRound]).length), 1 ≤ j →
          bothAgree (rounds ++ [newRound])[j] = false := by
        intro j hj h1
        rcases Nat.lt_or_ge j rounds.length with h | h
        · rw [List.getElem_append_left h]
          exact hprev j h h1
        · have hj' : j = rounds.length := by
            simp only [hlen'] at hj
            omega
          subst hj'
          rw [List.getElem_concat_length _ _ _ rfl, hNRagree]
          simpa using hcons
      have hrec := ih (i + 1) gT.content oT.content (rounds ++ [newRound])
        (snaps ++ [duelSnapshot topic (rounds ++ [newRound])])
        (by omega) (by rw [hlen', hi]) hidx' hprev'
      obtain ⟨c1, c2, c3, c4, c5, c6, c7, c8, c9⟩ := hrec
      refine ⟨c1, c2, c3, ?_, ?_, c6, c7, ?_, ?_⟩
      · calc rounds.length ≤ (rounds ++ [newRound]).length := by simp
          _ ≤ _ := c4
      · calc (debateLoop (okEnv f) gM oM topic fuel (i + 1) gT.content
              oT.content (rounds ++ [newRound])
              (snaps ++ [duelSnapshot topic (rounds ++ [newRound])])).1.rounds.length
            ≤ (rounds ++ [newRound]).length + fuel := c5
          _ = rounds.length + (fuel + 1) := by rw [hlen']; omega
      · intro j hj hag hlt
        exact c8 j hj hag (by omega)
      · intro hf
        obtain ⟨d1, d2⟩ := c9 hf
        refine ⟨?_, d2⟩
        rw [d1, hlen']
        omega

/-- The opening round of `StrategyDuel.run` under a total environment. -/
def debateOpenRound (f : ModelProvider → Str → Str → Str) (gM oM topic : Str) :
    DuelRound :=
  { index := 0,
    turns := [mkTurn f .gemini gM (openerPrompt topic) (openerSystem topic),
              mkTurn f .openai oM (openerPrompt topic) (openerSystem topic)] }

theorem runDebate_okEnv (f : ModelProvider → Str → Str → Str)
    (cfg : IntelligenceConfig) (topic : Str) :
    runDebate (okEnv f) cfg topic =
      debateLoop (okEnv f) (cfg.geminiModel.getD ("gemini-2.5-flash".toList))
        (cfg.openaiModel.getD ("gpt-4o".toList)) topic
        (cfg.maxIterations.getD 5 - 1) 1
        (mkTurn f .gemini (cfg.geminiModel.getD ("gemini-2.5-flash".toList))
          (openerPrompt topic) (openerSystem topic)).content
        (mkTurn f .openai (cfg.openaiModel.getD ("gpt-4o".toList))
          (openerPrompt topic) (openerSystem topic)).content
        [debateOpenRound f (cfg.geminiModel.getD ("gemini-2.5-flash".toList))
          (cfg.openaiModel.getD ("gpt-4o".toList)) topic]
        [duelSnapshot topic
          [debateOpenRound f (cfg.geminiModel.getD ("gemini-2.5-flash".toList))
            (cfg.openaiModel.getD ("gpt-4o".toList)) topic]] := rfl

/-- C1: Debate protocol termination by consensus.  For every total
environment, topic and configuration: (a) the session completes; (b) a
rebuttal round (index ≥ 1) whose two turns both carry the agreement flag is
the final round — no further round is appended — and the session's consensus
narrative names exactly that round; (c) a round on which the two turns did
not both agree, with budget remaining (`j + 1 < maxRounds`), is followed by a
further round. -/
theorem c1_debate_consensus_termination
    (f : ModelProvider → Str → Str → Str) (cfg : IntelligenceConfig)
    (topic : Str) :
    (runDebate (okEnv f) cfg topic).1.status = .completed ∧
    (∀ j (hj : j < (runDebate (okEnv f) cfg topic).1.rounds.length),
      1 ≤ j →
      bothAgree (runDebate (okEnv f) cfg topic).1.rounds[j] = true →
      j + 1 = (runDebate (okEnv f) cfg topic).1.rounds.length ∧
      (runDebate (okEnv f) cfg topic).1.consensus
        = some (consensusNarrative j)) ∧
    (∀ j (hj : j < (runDebate (okEnv f) cfg topic).1.rounds.length),
      bothAgree (runDebate (okEnv f) cfg topic).1.rounds[j] = false →
      j + 1 < cfg.maxIterations.getD 5 →
      j + 2 ≤ (runDebate (okEnv f) cfg topic).1.rounds.length) := by
  have hspec := debateLoop_ok_spec f
    (cfg.geminiModel.getD ("gemini-2.5-flash".toList))
    (cfg.openaiModel.getD ("gpt-4o".toList)) topic
    (cfg.maxIterations.getD 5 - 1) 1
    (mkTurn f .gemini (cfg.geminiModel.getD ("gemini-2.5-flash".toList))
      (openerPrompt topic) (openerSystem topic)).content
    (mkTurn f .openai (cfg.openaiModel.getD ("gpt-4o".toList))
      (openerPrompt topic) (openerSystem topic)).content
    [debateOpenRound f (cfg.geminiModel.getD ("gemini-2.5-flash".toList))
      (cfg.openaiModel.getD ("gpt-4o".toList)) topic]
    [duelSnapshot topic
      [debateOpenRound f (cfg.geminiModel.getD ("gemini-2.5-flash".toList))
        (cfg.openaiModel.getD ("gpt-4o".toList)) topic]]
    (by omega) (by simp)
    (by
      intro j hj
      simp only [List.length_singleton] at hj
      have hj0 : j = 0 := by omega
      subst hj0
      rfl)
    (by
      intro j hj h1
      simp only [List.length_singleton] at hj
      omega)
  rw [runDebate_okEnv]
  obtain ⟨c1, c2, c3, c4, c5, c6, c7, c8, c9⟩ := hspec
  refine ⟨c2, c7, ?_⟩
  intro j hj hag hlt
  refine c8 j hj hag ?_
  omega

/-- A concrete environment for exercising C1: every rebuttal response starts
with the agreement token, the opening responses do not. -/
def c1EnvA : ModelProvider → Str → Str → Str :=
  fun _ _ u => if u = rebuttalPrompt then ("[AGREE] ok".toList)
    else ("open".toList)

theorem c1_debate_consensus_termination_witness :
    1 + 1 = (runDebate (okEnv c1EnvA) {} ("t".toList)).1.rounds.length ∧
    (runDebate (okEnv c1EnvA) {} ("t".toList)).1.consensus
      = some (consensusNarrative 1) :=
  (c1_debate_consensus_termination c1EnvA {} ("t".toList)).2.1 1
    (by decide) (by decide) (by decide)

/-- C8: Debate budget exhaustion.  With `maxIterations = 3` and an
environment that never emits the agreement token, the session completes with
exactly 3 rounds (opening plus two rebuttals) and the budget-exhausted
narrative, not the consensus narrative. -/
theorem c8_debate_budget_exhaustion (f : ModelProvider → Str → Str → Str)
    (topic : Str)
    (hf : ∀ p s u, strContains agreeToken (f p s u) = false) :
    (runDebate (okEnv f) { maxIterations := some 3 } topic).1.status
      = .completed ∧
    (runDebate (okEnv f) { maxIterations := some 3 } topic).1.rounds.length
      = 3 ∧
    (runDebate (okEnv f) { maxIterations := some 3 } topic).1.consensus
      = some exhaustedNarrative := by
  have hspec := debateLoop_ok_spec f
    (({ maxIterations := some 3 } : IntelligenceConfig).geminiModel.getD
      ("gemini-2.5-flash".toList))
    (({ maxIterations := some 3 } : IntelligenceConfig).openaiModel.getD
      ("gpt-4o".toList)) topic
    (({ maxIterations := some 3 } : IntelligenceConfig).maxIterations.getD 5 - 1) 1
    (mkTurn f .gemini
      (({ maxIterations := some 3 } : IntelligenceConfig).geminiModel.getD
        ("gemini-2.5-flash".toList))
      (openerPrompt topic) (openerSystem topic)).content
    (mkTurn f .openai
      (({ maxIterations := some 3 } : IntelligenceConfig).openaiModel.getD
        ("gpt-4o".toList))
      (openerPrompt topic) (openerSystem topic)).content
    [debateOpenRound f
      (({ maxIterations := some 3 } : IntelligenceConfig).geminiModel.getD
        ("gemini-2.5-flash".toList))
      (({ maxIterations := some 3 } : IntelligenceConfig).openaiModel.getD
        ("gpt-4o".toList)) topic]
    [duelSnapshot topic
      [debateOpenRound f
        (({ maxIterations := some 3 } : IntelligenceConfig).geminiModel.getD
          ("gemini-2.5-flash".toList))
        (({ maxIterations := some 3 } : IntelligenceConfig).openaiModel.getD
          ("gpt-4o".toList)) topic]]
    (by omega) (by simp)
    (by
      intro j hj
      simp only [List.length_singleton] at hj
      have hj0 : j = 0 := by omega
      subst hj0
      rfl)
    (by
      intro j hj h1
      simp only [List.length_singleton] at hj
      omega)
  rw [runDebate_okEnv]
  obtain ⟨c1, c2, c3, c4, c5, c6, c7, c8, c9⟩ := hspec
  obtain ⟨d1, d2⟩ := c9 hf
  refine ⟨c2, ?_, d2⟩
  rw [d1]
  rfl

/-- A concrete environment whose responses never contain the agreement
token. -/
def c8EnvNoAgree : ModelProvider → Str → Str → Str :=
  fun _ _ _ => "no consensus here".toList

theorem c8_debate_budget_exhaustion_witness :
    (runDebate (okEnv c8EnvNoAgree) { maxIterations := some 3 }
      ("t".toList)).1.status = .completed ∧
    (runDebate (okEnv c8EnvNoAgree) { maxIterations := some 3 }
      ("t".toList)).1.rounds.length = 3 ∧
    (runDebate (okEnv c8EnvNoAgree) { maxIterations := some 3 }
      ("t".toList)).1.consensus = some exhaustedNarrative :=
  c8_debate_budget_exhaustion c8EnvNoAgree ("t".toList)
    (fun p s u =>
      show strContains agreeToken ("no consensus here".toList) = false by
        decide)

/-! ## C6: the debate agreement sentinel

The spec claims case-insensitive detection; the code
(ReplayPanel.tsx:663) uses the case-sensitive
`rawResponse.includes("[AGREE]")`. -/

/-- Spec-side notion (from the claim's words): case-insensitive substring
match. -/
def containsCI (needle hay : Str) : Bool :=
  strContains (upperStr needle) (upperStr hay)

/-- An environment answering a lowercase agreement token. -/
def c6EnvLower : ModelProvider → Str → Str → Str :=
  fun _ _ _ => "[agree] ok".toList

/-- An environment answering with the token in mid-string. -/
def c6EnvMid : ModelProvider → Str → Str → Str :=
  fun _ _ _ => "x [AGREE] y".toList

/-- C6 counterexample: on the raw response `"[agree] ok"`, which contains the
agreement token case-insensitively, the stored turn's agreement flag is
`false` — detection is not the case-insensitive match the claim states. -/
theorem c6_agreement_sentinel_counterexample :
    generateTurn (okEnv c6EnvLower) .gemini ("m".toList) ("p".toList)
        ("s".toList)
      = .ok (mkTurn c6EnvLower .gemini ("m".toList) ("p".toList)
        ("s".toList)) ∧
    (mkTurn c6EnvLower .gemini ("m".toList) ("p".toList)
        ("s".toList)).isAgreement = false ∧
    containsCI agreeToken ("[agree] ok".toList) = true :=
  ⟨rfl, by decide, by decide⟩

/-- C6 amended: the agreement token is detected by a case-sensitive substring
match; when present, the stored content is the raw response with its first
(leftmost) occurrence of the token removed and the result trimmed; when
absent, the flag is false and the content is the raw response unchanged. -/
theorem c6_agreement_sentinel (f : ModelProvider → Str → Str → Str)
    (p : ModelProvider) (modelName prompt system : Str) :
    generateTurn (okEnv f) p modelName prompt system
      = .ok (mkTurn f p modelName prompt system) ∧
    ((mkTurn f p modelName prompt system).isAgreement = true
      ↔ agreeToken <:+: f p system prompt) ∧
    ((mkTurn f p modelName prompt system).isAgreement = false →
      (mkTurn f p modelName prompt system).content = f p system prompt) ∧
    ((mkTurn f p modelName prompt system).isAgreement = true →
      ∃ b a, f p system prompt = b ++ agreeToken ++ a ∧
        (mkTurn f p modelName prompt system).content = trimJs (b ++ a) ∧
        ∀ b' a', f p system prompt = b' ++ agreeToken ++ a' →
          b.length ≤ b'.length) := by
  refine ⟨rfl, ?_, ?_, ?_⟩
  · rw [show (mkTurn f p modelName prompt system).isAgreement
        = strContains agreeToken (f p system prompt) from rfl]
    exact strContains_iff_infix _ _
  · intro hfalse
    rw [show (mkTurn f p modelName prompt system).content
        = (if strContains agreeToken (f p system prompt) then
            trimJs (replaceFirst agreeToken [] (f p system prompt))
          else f p system prompt) from rfl]
    rw [show (mkTurn f p modelName prompt system).isAgreement
        = strContains agreeToken (f p system prompt) from rfl] at hfalse
    rw [hfalse]
    simp
  · intro htrue
    rw [show (mkTurn f p modelName prompt system).isAgreement
        = strContains agreeToken (f p system prompt) from rfl] at htrue
    have hsome : (splitFirst agreeToken (f p system prompt)).isSome := htrue
    cases hsp : splitFirst agreeToken (f p system prompt) with
    | none => rw [hsp] at hsome; simp at hsome
    | some q =>
      obtain ⟨b, a⟩ := q
      refine ⟨b, a, splitFirst_eq hsp, ?_, fun b' a' hba =>
        splitFirst_min hsp b' a' hba⟩
      rw [show (mkTurn f p modelName prompt system).content
          = (if strContains agreeToken (f p system prompt) then
              trimJs (replaceFirst agreeToken [] (f p system prompt))
            else f p system prompt) from rfl]
      rw [htrue]
      simp only [if_true]
      rw [replaceFirst, hsp]
      simp

theorem c6_agreement_sentinel_witness :
    (mkTurn c6EnvMid .gemini ("m".toList) ("p".toList)
        ("s".toList)).isAgreement = true ∧
    (mkTurn c6EnvMid .gemini ("m".toList) ("p".toList)
        ("s".toList)).content = ("x  y".toList) := by
  refine ⟨?_, by decide⟩
  exact ((c6_agreement_sentinel c6EnvMid .gemini ("m".toList) ("p".toList)
    ("s".toList)).2.1).mpr ⟨"x ".toList, " y".toList, by decide⟩

/-! ## Round-index invariant (debate, arbitrary environment) -/

theorem debateLoop_step (env : Env) (gM oM topic : Str) (fuel i : Nat)
    (lg lo : Str) (rounds : List DuelRound) (snaps : List DuelSession) :
    debateLoop env gM oM topic (fuel + 1) i lg lo rounds snaps =
      match generateTurn env .gemini gM rebuttalPrompt (debaterSystem lo),
            generateTurn env .openai oM rebuttalPrompt (debaterSystem lg) with
      | .error m, _ => (duelErrorSession topic rounds m, snaps)
      | .ok _, .error m => (duelErrorSession topic rounds m, snaps)
      | .ok geminiTurn, .ok openaiTurn =>
        if geminiTurn.isAgreement && openaiTurn.isAgreement then
          ({ topic := topic,
             rounds := rounds ++ [{ index := i, turns := [geminiTurn, openaiTurn] }],
             status := .completed,
             consensus := some (consensusNarrative i) },
           snaps ++ [duelSnapshot topic
             (rounds ++ [{ index := i, turns := [geminiTurn, openaiTurn] }])])
        else
          debateLoop env gM oM topic fuel (i + 1)
            geminiTurn.content openaiTurn.content
            (rounds ++ [{ index := i, turns := [geminiTurn, openaiTurn] }])
            (snaps ++ [duelSnapshot topic
              (rounds ++ [{ index := i, turns := [geminiTurn, openaiTurn] }])])
    := rfl

/-- Index predicate: every round of the list carries its own position as
index. -/
def IndexedRounds (rounds : List DuelRound) : Prop :=
  ∀ j (hj : j < rounds.length), rounds[j].index = j

theorem indexedRounds_append (rounds : List DuelRound) (r : DuelRound)
    (h : IndexedRounds rounds) (hr : r.index = rounds.length) :
    IndexedRounds (rounds ++ [r]) := by
  intro j hj
  rcases Nat.lt_or_ge j rounds.length with hlt | hge
  · rw [List.getElem_append_left hlt]
    exact h j hlt
  · have hj' : j = rounds.length := by
      simp only [List.length_append, List.length_singleton] at hj
      omega
    subst hj'
    rw [List.getElem_concat_length _ _ _ rfl]
    exact hr

/-- Under any environment (failures included), the rebuttal loop keeps every
round's index equal to its position, in the final session and in every
observer snapshot. -/
theorem debateLoop_indexed (env : Env) (gM oM topic : Str) :
    ∀ (fuel i : Nat) (lg lo : Str) (rounds : List DuelRound)
      (snaps : List DuelSession),
      i = rounds.length →
      IndexedRounds rounds →
      (∀ s ∈ snaps, IndexedRounds s.rounds) →
      IndexedRounds
        (debateLoop env gM oM topic fuel i lg lo rounds snaps).1.rounds ∧
      (∀ s ∈ (debateLoop env gM oM topic fuel i lg lo rounds snaps).2,
        IndexedRounds s.rounds) := by
  intro fuel
  induction fuel with
  | zero =>
    intro i lg lo rounds snaps hi hidx hsnaps
    rw [debateLoop_zero]
    exact ⟨hidx, hsnaps⟩
  | succ fuel ih =>
    intro i lg lo rounds snaps hi hidx hsnaps
    rw [debateLoop_step]
    cases hg : generateTurn env .gemini gM rebuttalPrompt (debaterSystem lo) with
    | error m => exact ⟨hidx, hsnaps⟩
    | ok gT =>
      cases ho : generateTurn env .openai oM rebuttalPrompt (debaterSystem lg) with
      | error m => exact ⟨hidx, hsnaps⟩
      | ok oT =>
        dsimp only
        have hidx' : IndexedRounds
            (rounds ++ [{ index := i, turns := [gT, oT] }]) :=
          indexedRounds_append rounds _ hidx hi
        have hsnaps' : ∀ s ∈ snaps ++ [duelSnapshot topic
            (rounds ++ [{ index := i, turns := [gT, oT] }])],
            IndexedRounds s.rounds := by
          intro s hs
          rcases List.mem_append.mp hs with hs | hs
          · exact hsnaps s hs
          · rcases List.mem_singleton.mp hs with rfl
            exact hidx'
        by_cases hagree : (gT.isAgreement && oT.isAgreement) = true
        · rw [if_pos hagree]
          exact ⟨hidx', hsnaps'⟩
        · rw [if_neg hagree]
          exact ih (i + 1) gT.content oT.content
            (rounds ++ [{ index := i, turns := [gT, oT] }])
            (snaps ++ [duelSnapshot topic
              (rounds ++ [{ index := i, turns := [gT, oT] }])])
            (by simp [hi]) hidx' hsnaps'

/-! ## Cascade protocol (`SynthesisCascade`, synthesis-cascade.ts) -/

structure CascadeConfig where
  geminiModel : Str
  openaiModel : Str
  claudeModel : Str
  maxValidationRounds : Nat

/-- Default configuration (`DEFAULT_CONFIG`, synthesis-cascade.ts:23-29);
`temperature` omitted as before. -/
def DEFAULT_CONFIG : CascadeConfig :=
  { geminiModel := "gemini-3-pro-preview".toList,
    openaiModel := "gpt-5.2".toList,
    claudeModel := "claude-sonnet-4-20250514".toList,
    maxValidationRounds := 3 }

inductive CascadePhase
  | generation
  | critique
  | synthesis
  | validation
  | complete
  | error
deriving DecidableEq, BEq

structure ModelOutput where
  provider : ModelProvider
  model : Str
  content : Str
deriving DecidableEq

/-- `CritiqueOutput extends ModelOutput` flattened. -/
structure CritiqueOutput where
  provider : ModelProvider
  model : Str
  content : Str
  targetProviders : List ModelProvider
  strengths : List Str
  weaknesses : List Str
deriving DecidableEq

structure ValidationVote where
  provider : ModelProvider
  model : Str
  accept : Bool
  reasoning : Str
deriving DecidableEq

structure CascadeRound where
  index : Nat
  phase : CascadePhase
  generations : Option (List ModelOutput) := none
  critiques : Option (List CritiqueOutput) := none
  synthesis : Option ModelOutput := none
  votes : Option (List ValidationVote) := none
  synthesizer : Option ModelProvider := none
deriving DecidableEq

structure CascadeSession where
  topic : Str
  rounds : List CascadeRound
  status : SessionStatus
  finalOutput : Option Str := none
  consensusReached : Bool
  error : Option Str := none
deriving DecidableEq

def GENERATION_PROMPT : Str :=
  ("\nYou are a world-class strategic advisor and code architect.\nYour task is to provide the most insightful, robust, and actionable solution for the given topic.\n\nBe bold, specific, and comprehensive. Do not hedge or provide generic advice.\nIf code is requested, provide complete, runnable code with all imports and dependencies.\n\nTopic:\n\x7b\x7bTOPIC\x7d\x7d\n").toList

def CRITIQUE_PROMPT : Str :=
  ("\nYou are a critical analyst reviewing solutions from two other AI models.\nYour job is to identify strengths and weaknesses in their approaches.\n\nSOLUTION FROM \x7b\x7bPROVIDER_A\x7d\x7d (\x7b\x7bMODEL_A\x7d\x7d):\n───────────────────────────────────────\n\x7b\x7bSOLUTION_A\x7d\x7d\n\nSOLUTION FROM \x7b\x7bPROVIDER_B\x7d\x7d (\x7b\x7bMODEL_B\x7d\x7d):\n───────────────────────────────────────\n\x7b\x7bSOLUTION_B\x7d\x7d\n\nProvide your critique in this exact format:\n\n## \x7b\x7bPROVIDER_A\x7d\x7d Critique\n**Strengths:**\n- [list specific strengths]\n\n**Weaknesses:**\n- [list specific weaknesses or blind spots]\n\n## \x7b\x7bPROVIDER_B\x7d\x7d Critique\n**Strengths:**\n- [list specific strengths]\n\n**Weaknesses:**\n- [list specific weaknesses or blind spots]\n\n## Key Insights\n[What would the ideal solution incorporate from each?]\n").toList

def SYNTHESIS_PROMPT : Str :=
  ("\nYou are the SYNTHESIZER. Your job is to create the BEST possible solution by combining the strengths of three AI models while avoiding their weaknesses.\n\nORIGINAL TOPIC:\n\x7b\x7bTOPIC\x7d\x7d\n\n════════════════════\u2550═════════════════════\u2550════════════════════\nGEMINI's SOLUTION:\n\x7b\x7bGEMINI_SOLUTION\x7d\x7d\n\nCRITIQUE OF GEMINI:\n\x7b\x7bGEMINI_CRITIQUE\x7d\x7d\n\n════════════════════\u2550═════════════════════\u2550════════════════════\nOPENAI's SOLUTION:\n\x7b\x7bOPENAI_SOLUTION\x7d\x7d\n\nCRITIQUE OF OPENAI:\n\x7b\x7bOPENAI_CRITIQUE\x7d\x7d\n\n════════════════════\u2550═════════════════════\u2550════════════════════\nCLAUDE's SOLUTION:\n\x7b\x7bCLAUDE_SOLUTION\x7d\x7d\n\nCRITIQUE OF CLAUDE:\n\x7b\x7bCLAUDE_CRITIQUE\x7d\x7d\n\n════════════════════\u2550═════════════════════\u2550════════════════════\n\nINSTRUCTIONS:\n1. Identify the strongest elements from each solution\n2. Address the weaknesses identified in the critiques\n3. Synthesize into a single, optimal solution\n4. Ensure completeness - the output must be immediately usable\n5. Do NOT simply pick one solution - you must genuinely synthesize\n\nOutput your synthesized solution directly. No preamble.\n").toList

def VALIDATION_PROMPT : Str :=
  ("\nYou are a VALIDATOR. A synthesized solution has been created from three AI models' outputs.\nYour job is to vote: ACCEPT or REJECT.\n\nORIGINAL TOPIC:\n\x7b\x7bTOPIC\x7d\x7d\n\nSYNTHESIZED SOLUTION:\n\x7b\x7bSYNTHESIS\x7d\x7d\n\nVote ACCEPT if:\n- The synthesis genuinely incorporates the best elements\n- It addresses the original topic comprehensively\n- It is complete and immediately usable\n- It represents an improvement over any single model's output\n\nVote REJECT if:\n- The synthesis missed critical elements\n- It introduced new errors or inconsistencies\n- It is incomplete or unusable\n- A single model's output was actually better\n\nRespond in this exact format:\nVOTE: [ACCEPT or REJECT]\nREASONING: [Your detailed reasoning]\n").toList

def provName : ModelProvider → Str
  | .gemini => "gemini".toList
  | .openai => "openai".toList
  | .claude => "claude".toList

/-- The `provider.toUpperCase()` of the source. -/
def provUpper (p : ModelProvider) : Str := upperStr (provName p)

def getModelName (cfg : CascadeConfig) : ModelProvider → Str
  | .gemini => cfg.geminiModel
  | .openai => cfg.openaiModel
  | .claude => cfg.claudeModel

/-- Embeds `SynthesisCascade.callProvider` (synthesis-cascade.ts:179-197);
the latency measurement is omitted. -/
def callProvider (env : Env) (cfg : CascadeConfig) (provider : ModelProvider)
    (systemPrompt userPrompt : Str) : Except Str ModelOutput := do
  let content ← env provider systemPrompt userPrompt
  pure { provider := provider, model := getModelName cfg provider,
         content := content }

/-- The synthesizer rotation `["claude", "gemini", "openai"]` with its
wrapping pointer; the source stores `currentSynthesizerIndex` (mod 3) in the
instance, here the count of `getNextSynthesizer` calls is threaded and
reduced mod 3 at lookup. -/
def synthesizerRotation : List ModelProvider := [.claude, .gemini, .openai]

def rotationAt (n : Nat) : ModelProvider :=
  synthesizerRotation.getD (n % 3) .claude

def getValidators (synthesizer : ModelProvider) : List ModelProvider :=
  ([.gemini, .openai, .claude] : List ModelProvider).filter
    (fun p => p != synthesizer)

/-- The `generations.find(g => g.provider === p)!.content` lookups
(synthesis-cascade.ts:232-234, 312-314): first output of the given provider;
the source's non-null assertion holds at every call site, the `[]` default is
never reached there. -/
def findSolution (generations : List ModelOutput) (p : ModelProvider) : Str :=
  match generations.find? (fun g => g.provider == p) with
  | some g => g.content
  | none => []

def runGeneration (env : Env) (cfg : CascadeConfig) (topic : Str) :
    Except Str (List ModelOutput) := do
  let systemPrompt := replaceFirst ("\x7b\x7bTOPIC\x7d\x7d".toList) topic
    GENERATION_PROMPT
  let geminiOutput ← callProvider env cfg .gemini systemPrompt
    ("Provide your solution:".toList)
  let openaiOutput ← callProvider env cfg .openai systemPrompt
    ("Provide your solution:".toList)
  let claudeOutput ← callProvider env cfg .claude systemPrompt
    ("Provide your solution:".toList)
  pure [geminiOutput, openaiOutput, claudeOutput]

def buildCritiquePrompt (providerA : ModelProvider) (modelA solutionA : Str)
    (providerB : ModelProvider) (modelB solutionB : Str) : Str :=
  replaceFirst ("\x7b\x7bSOLUTION_B\x7d\x7d".toList) solutionB
    (replaceAll ("\x7b\x7bMODEL_B\x7d\x7d".toList) modelB
      (replaceAll ("\x7b\x7bPROVIDER_B\x7d\x7d".toList) (provUpper providerB)
        (replaceFirst ("\x7b\x7bSOLUTION_A\x7d\x7d".toList) solutionA
          (replaceAll ("\x7b\x7bMODEL_A\x7d\x7d".toList) modelA
            (replaceAll ("\x7b\x7bPROVIDER_A\x7d\x7d".toList) (provUpper providerA)
              CRITIQUE_PROMPT)))))

def parseCritique (output : ModelOutput) (targets : List ModelProvider) :
    CritiqueOutput :=
  { provider := output.provider, model := output.model,
    content := output.content, targetProviders := targets,
    strengths := [], weaknesses := [] }

/-- Embeds `SynthesisCascade.runCritique` (synthesis-cascade.ts:229-299). -/
def runCritique (env : Env) (cfg : CascadeConfig)
    (generations : List ModelOutput) : Except Str (List CritiqueOutput) := do
  let geminiSolution := findSolution generations .gemini
  let openaiSolution := findSolution generations .openai
  let claudeSolution := findSolution generations .claude
  let geminiCritique ← callProvider env cfg .gemini
    (buildCritiquePrompt .openai cfg.openaiModel openaiSolution
      .claude cfg.claudeModel claudeSolution)
    ("Provide your critique:".toList)
  let openaiCritique ← callProvider env cfg .openai
    (buildCritiquePrompt .gemini cfg.geminiModel geminiSolution
      .claude cfg.claudeModel claudeSolution)
    ("Provide your critique:".toList)
  let claudeCritique ← callProvider env cfg .claude
    (buildCritiquePrompt .gemini cfg.geminiModel geminiSolution
      .openai cfg.openaiModel openaiSolution)
    ("Provide your critique:".toList)
  pure [parseCritique geminiCritique [.openai, .claude],
        parseCritique openaiCritique [.gemini, .claude],
        parseCritique claudeCritique [.gemini, .openai]]

def getCritiquesFor (critiques : List CritiqueOutput) (provider : ModelProvider) :
    Str :=
  List.intercalate ("\n\n".toList)
    ((critiques.filter (fun c => c.targetProviders.contains provider)).map
      (fun c => ("[From ".toList) ++ provUpper c.provider ++ ("]: ".toList)
        ++ c.content))

/-- The fully substituted synthesizer system prompt of
`SynthesisCascade.runSynthesis` (synthesis-cascade.ts:324-331). -/
def synthesisSystem (topic : Str) (generations : List ModelOutput)
    (critiques : List CritiqueOutput) : Str :=
  (replaceFirst ("\x7b\x7bCLAUDE_CRITIQUE\x7d\x7d".toList)
        (getCritiquesFor critiques .claude)
      (replaceFirst ("\x7b\x7bCLAUDE_SOLUTION\x7d\x7d".toList)
          (findSolution generations .claude)
        (replaceFirst ("\x7b\x7bOPENAI_CRITIQUE\x7d\x7d".toList)
            (getCritiquesFor critiques .openai)
          (replaceFirst ("\x7b\x7bOPENAI_SOLUTION\x7d\x7d".toList)
              (findSolution generations .openai)
            (replaceFirst ("\x7b\x7bGEMINI_CRITIQUE\x7d\x7d".toList)
                (getCritiquesFor critiques .gemini)
              (replaceFirst ("\x7b\x7bGEMINI_SOLUTION\x7d\x7d".toList)
                  (findSolution generations .gemini)
                (replaceFirst ("\x7b\x7bTOPIC\x7d\x7d".toList) topic
                  SYNTHESIS_PROMPT)))))))

/-- Embeds `SynthesisCascade.runSynthesis` (synthesis-cascade.ts:304-334). -/
def runSynthesis (env : Env) (cfg : CascadeConfig) (topic : Str)
    (generations : List ModelOutput) (critiques : List CritiqueOutput)
    (synthesizer : ModelProvider) : Except Str ModelOutput :=
  callProvider env cfg synthesizer (synthesisSystem topic generations critiques)
    ("Create the synthesized solution:".toList)

/-- The substituted validator system prompt
(synthesis-cascade.ts:346-348). -/
def validationSystem (topic : Str) (synthesis : ModelOutput) : Str :=
  replaceFirst ("\x7b\x7bSYNTHESIS\x7d\x7d".toList) synthesis.content
    (replaceFirst ("\x7b\x7bTOPIC\x7d\x7d".toList) topic VALIDATION_PROMPT)

/-- One validator's vote record built from its raw output. -/
def voteOf (validator : ModelProvider) (modelName : Str) (content : Str) :
    ValidationVote :=
  { provider := validator, model := modelName,
    accept := (voteScan content).getD false,
    reasoning :=
      match reasoningScan content with
      | some r => trimJs r
      | none => content }

/-- Embeds `SynthesisCascade.runValidation` (synthesis-cascade.ts:339-367):
each validator votes (the `Promise.all` fan-in collected in validator order,
first rejection winning); unparseable `VOTE:` lines default to REJECT, the
raw content standing in for missing `REASONING:`. -/
def runValidation (env : Env) (cfg : CascadeConfig) (topic : Str)
    (synthesis : ModelOutput) :
    List ModelProvider → Except Str (List ValidationVote)
  | [] => .ok []
  | validator :: rest => do
    let output ← callProvider env cfg validator
      (validationSystem topic synthesis) ("Cast your vote:".toList)
    let votes ← runValidation env cfg topic synthesis rest
    pure (voteOf validator (getModelName cfg validator) output.content :: votes)

/-- Observer snapshot (`onUpdate({ ...session })`): status still `running`,
consensus flag not yet set. -/
def cascadeSnapshot (topic : Str) (rounds : List CascadeRound) :
    CascadeSession :=
  { topic := topic, rounds := rounds, status := .running,
    consensusReached := false }

def cascadeErrorSession (topic : Str) (rounds : List CascadeRound) (m : Str) :
    CascadeSession :=
  { topic := topic, rounds := rounds, status := .error,
    consensusReached := false, error := some m }

/-- The fallback final artifact after exhaustion
(synthesis-cascade.ts:470-474): last synthesis if any — the JS `||` also
falls through on an empty synthesis content — else the first generation. -/
def exhaustFinalOutput (rounds : List CascadeRound)
    (generations : List ModelOutput) : Str :=
  match ((rounds.filter (fun r => r.synthesis.isSome)).getLast?).bind
      (fun r => r.synthesis) with
  | some syn =>
    if syn.content.isEmpty then
      ((generations.head?).map (fun g => g.content)).getD []
    else syn.content
  | none => ((generations.head?).map (fun g => g.content)).getD []

def cascadeExhaustSession (topic : Str) (rounds : List CascadeRound)
    (generations : List ModelOutput) : CascadeSession :=
  { topic := topic, rounds := rounds, status := .completed,
    consensusReached := false,
    finalOutput := some (exhaustFinalOutput rounds generations) }

/-- The round record a synthesis+validation iteration appends. -/
def svRound (idx : Nat) (ph : CascadePhase) (synthesis : ModelOutput)
    (votes : List ValidationVote) (synthesizer : ModelProvider) :
    CascadeRound :=
  { index := idx, phase := ph, synthesis := some synthesis,
    votes := some votes, synthesizer := some synthesizer }

/-- Round 0 (generation phase). -/
def genRound (generations : List ModelOutput) : CascadeRound :=
  { index := 0, phase := .generation, generations := some generations }

/-- Round 1 (critique phase). -/
def critRound (critiques : List CritiqueOutput) : CascadeRound :=
  { index := 1, phase := .critique, critiques := some critiques }

/-- The pool member appended on rejection:
`{ ...synthesis, provider: synthesizer }` (synthesis-cascade.ts:456-459). -/
def pooledSynthesis (synthesis : ModelOutput) (synthesizer : ModelProvider) :
    ModelOutput :=
  { provider := synthesizer, model := synthesis.model,
    content := synthesis.content }

/-- The synthesis+validation loop of `SynthesisCascade.run`
(synthesis-cascade.ts:409-464).  `fuel` is
`maxValidationRounds - validationRound`; `rotIdx` counts the
`getNextSynthesizer` calls made so far (source: a mod-3 pointer).  On
rejection with budget remaining, the rejected synthesis joins the original
generations in the pool for the next synthesis, and the critiques are
recomputed — the source passes the original `generations` to `runCritique`
there. -/
def cascadeLoop (env : Env) (cfg : CascadeConfig) (topic : Str)
    (generations : List ModelOutput) :
    Nat → List ModelOutput → List CritiqueOutput → Nat →
    List CascadeRound → List CascadeSession →
    CascadeSession × List CascadeSession
  | 0, _, _, _, rounds, snaps =>
    (cascadeExhaustSession topic rounds generations, snaps)
  | fuel + 1, currentGenerations, currentCritiques, rotIdx, rounds, snaps =>
    match runSynthesis env cfg topic currentGenerations currentCritiques
        (rotationAt rotIdx) with
    | .error m => (cascadeErrorSession topic rounds m, snaps)
    | .ok synthesis =>
      match runValidation env cfg topic synthesis
          (getValidators (rotationAt rotIdx)) with
      | .error m => (cascadeErrorSession topic rounds m, snaps)
      | .ok votes =>
        if 2 ≤ (votes.filter (fun v => v.accept)).length then
          ({ topic := topic,
             rounds := rounds ++ [svRound rounds.length .complete synthesis
               votes (rotationAt rotIdx)],
             status := .completed, consensusReached := true,
             finalOutput := some synthesis.content },
           snaps ++ [cascadeSnapshot topic (rounds ++ [svRound rounds.length
             .complete synthesis votes (rotationAt rotIdx)])])
        else
          if fuel = 0 then
            (cascadeExhaustSession topic
              (rounds ++ [svRound rounds.length .validation synthesis votes
                (rotationAt rotIdx)]) generations,
             snaps ++ [cascadeSnapshot topic (rounds ++ [svRound rounds.length
               .validation synthesis votes (rotationAt rotIdx)])])
          else
            match runCritique env cfg generations with
            | .error m =>
              (cascadeErrorSession topic
                (rounds ++ [svRound rounds.length .validation synthesis votes
                  (rotationAt rotIdx)]) m,
               snaps ++ [cascadeSnapshot topic (rounds ++ [svRound
                 rounds.length .validation synthesis votes
                 (rotationAt rotIdx)])])
            | .ok newCritiques =>
              cascadeLoop env cfg topic generations fuel
                (generations ++ [pooledSynthesis synthesis (rotationAt rotIdx)])
                newCritiques (rotIdx + 1)
                (rounds ++ [svRound rounds.length .validation synthesis votes
                  (rotationAt rotIdx)])
                (snaps ++ [cascadeSnapshot topic (rounds ++ [svRound
                  rounds.length .validation synthesis votes
                  (rotationAt rotIdx)])])

/-- Embeds `SynthesisCascade.run` (synthesis-cascade.ts:372-485) for a fresh
instance (rotation pointer 0). -/
def runCascade (env : Env) (cfg : CascadeConfig) (topic : Str) :
    CascadeSession × List CascadeSession :=
  match runGeneration env cfg topic with
  | .error m => (cascadeErrorSession topic [] m, [])
  | .ok generations =>
    match runCritique env cfg generations with
    | .error m =>
      (cascadeErrorSession topic [genRound generations] m,
       [cascadeSnapshot topic [genRound generations]])
    | .ok critiques =>
      cascadeLoop env cfg topic generations cfg.maxValidationRounds
        generations critiques 0
        [genRound generations, critRound critiques]
        [cascadeSnapshot topic [genRound generations],
         cascadeSnapshot topic [genRound generations, critRound critiques]]

/-! ## Cascade loop lemmas -/

/-- The output produced by `callProvider` under a total environment. -/
def mkOutput (f : ModelProvider → Str → Str → Str) (cfg : CascadeConfig)
    (p : ModelProvider) (systemPrompt userPrompt : Str) : ModelOutput :=
  { provider := p, model := getModelName cfg p,
    content := f p systemPrompt userPrompt }

theorem callProvider_okEnv (f : ModelProvider → Str → Str → Str)
    (cfg : CascadeConfig) (p : ModelProvider) (sys u : Str) :
    callProvider (okEnv f) cfg p sys u = .ok (mkOutput f cfg p sys u) := rfl

def generationSystem (topic : Str) : Str :=
  replaceFirst ("\x7b\x7bTOPIC\x7d\x7d".toList) topic GENERATION_PROMPT

def mkGenerations (f : ModelProvider → Str → Str → Str) (cfg : CascadeConfig)
    (topic : Str) : List ModelOutput :=
  [mkOutput f cfg .gemini (generationSystem topic)
    ("Provide your solution:".toList),
   mkOutput f cfg .openai (generationSystem topic)
    ("Provide your solution:".toList),
   mkOutput f cfg .claude (generationSystem topic)
    ("Provide your solution:".toList)]

theorem runGeneration_okEnv (f : ModelProvider → Str → Str → Str)
    (cfg : CascadeConfig) (topic : Str) :
    runGeneration (okEnv f) cfg topic = .ok (mkGenerations f cfg topic) := rfl

def mkCritiques (f : ModelProvider → Str → Str → Str) (cfg : CascadeConfig)
    (generations : List ModelOutput) : List CritiqueOutput :=
  [parseCritique (mkOutput f cfg .gemini
      (buildCritiquePrompt .openai cfg.openaiModel
        (findSolution generations .openai)
        .claude cfg.claudeModel (findSolution generations .claude))
      ("Provide your critique:".toList)) [.openai, .claude],
   parseCritique (mkOutput f cfg .openai
      (buildCritiquePrompt .gemini cfg.geminiModel
        (findSolution generations .gemini)
        .claude cfg.claudeModel (findSolution generations .claude))
      ("Provide your critique:".toList)) [.gemini, .claude],
   parseCritique (mkOutput f cfg .claude
      (buildCritiquePrompt .gemini cfg.geminiModel
        (findSolution generations .gemini)
        .openai cfg.openaiModel (findSolution generations .openai))
      ("Provide your critique:".toList)) [.gemini, .openai]]

theorem runCritique_okEnv (f : ModelProvider → Str → Str → Str)
    (cfg : CascadeConfig) (generations : List ModelOutput) :
    runCritique (okEnv f) cfg generations
      = .ok (mkCritiques f cfg generations) := rfl

def mkSynthesis (f : ModelProvider → Str → Str → Str) (cfg : CascadeConfig)
    (topic : Str) (generations : List ModelOutput)
    (critiques : List CritiqueOutput) (synthesizer : ModelProvider) :
    ModelOutput :=
  mkOutput f cfg synthesizer (synthesisSystem topic generations critiques)
    ("Create the synthesized solution:".toList)

theorem runSynthesis_okEnv (f : ModelProvider → Str → Str → Str)
    (cfg : CascadeConfig) (topic : Str) (generations : List ModelOutput)
    (critiques : List CritiqueOutput) (synthesizer : ModelProvider) :
    runSynthesis (okEnv f) cfg topic generations critiques synthesizer
      = .ok (mkSynthesis f cfg topic generations critiques synthesizer) := rfl

/-- The vote a given validator casts under a total environment. -/
def mkVote (f : ModelProvider → Str → Str → Str) (cfg : CascadeConfig)
    (topic : Str) (synthesis : ModelOutput) (validator : ModelProvider) :
    ValidationVote :=
  voteOf validator (getModelName cfg validator)
    (f validator (validationSystem topic synthesis) ("Cast your vote:".toList))

theorem runValidation_okEnv (f : ModelProvider → Str → Str → Str)
    (cfg : CascadeConfig) (topic : Str) (synthesis : ModelOutput) :
    ∀ validators, runValidation (okEnv f) cfg topic synthesis validators
      = .ok (validators.map (mkVote f cfg topic synthesis)) := by
  intro validators
  induction validators with
  | nil => rfl
  | cons v vs ih =>
    rw [runValidation, callProvider_okEnv]
    rw [show (do
        let output ← (.ok (mkOutput f cfg v (validationSystem topic synthesis)
          ("Cast your vote:".toList)) : Except Str ModelOutput)
        let votes ← runValidation (okEnv f) cfg topic synthesis vs
        pure (voteOf v (getModelName cfg v) output.content :: votes)
      : Except Str (List ValidationVote)) = (do
        let votes ← runValidation (okEnv f) cfg topic synthesis vs
        pure (voteOf v (getModelName cfg v)
          (mkOutput f cfg v (validationSystem topic synthesis)
            ("Cast your vote:".toList)).content :: votes)) from rfl]
    rw [ih]
    rfl

theorem getValidators_length (s : ModelProvider) :
    (getValidators s).length = 2 := by
  cases s <;> rfl

theorem two_le_accept_iff (votes : List ValidationVote)
    (h : votes.length = 2) :
    2 ≤ (votes.filter (fun v => v.accept)).length
      ↔ votes.all (fun v => v.accept) = true := by
  match votes with
  | [a, b] =>
    cases ha : a.accept <;> cases hb : b.accept <;>
      simp [List.filter, List.all, ha, hb]

theorem cascadeLoop_zero (env : Env) (cfg : CascadeConfig) (topic : Str)
    (generations : List ModelOutput) (curG : List ModelOutput)
    (curC : List CritiqueOutput) (rotIdx : Nat) (rounds : List CascadeRound)
    (snaps : List CascadeSession) :
    cascadeLoop env cfg topic generations 0 curG curC rotIdx rounds snaps
      = (cascadeExhaustSession topic rounds generations, snaps) := rfl

/-- Shape of every synthesis+validation round at position `j = k + 2`:
synthesizer from the rotation, a recorded synthesis, two votes, and the
complete phase exactly on unanimous acceptance. -/
def LoopRoundShape (r : CascadeRound) (k : Nat) : Prop :=
  r.synthesizer = some (rotationAt k) ∧ r.synthesis.isSome = true ∧
  (r.phase = .validation ∨ r.phase = .complete) ∧
  ∃ vs, r.votes = some vs ∧ vs.length = 2 ∧
    (r.phase = .complete ↔ vs.all (fun v => v.accept) = true)

/-- A synthesis+validation round that was rejected. -/
def RejectedRound (r : CascadeRound) (k : Nat) : Prop :=
  LoopRoundShape r k ∧ r.phase = .validation

/-- What the synthesis+validation loop guarantees about the session it
returns, relative to the rounds list and budget at entry. -/
def CascadeLoopSpec (topic : Str) (rounds : List CascadeRound) (fuel : Nat)
    (S : CascadeSession) : Prop :=
  S.topic = topic ∧ S.status = .completed ∧ S.error = none ∧
  (∃ new, S.rounds = rounds ++ new ∧ new.length ≤ fuel) ∧
  (∀ j (hj : j < S.rounds.length), S.rounds[j].index = j) ∧
  (∀ j (hj : j < S.rounds.length), 2 ≤ j → LoopRoundShape S.rounds[j] (j - 2)) ∧
  (∀ j (hj : j < S.rounds.length), S.rounds[j].phase = .complete →
    j + 1 = S.rounds.length ∧ S.consensusReached = true ∧
    S.finalOutput = Option.map (fun o => o.content) S.rounds[j].synthesis) ∧
  (S.consensusReached = false →
    S.rounds.length = rounds.length + fuel ∧
    ∀ j (hj : j < S.rounds.length), S.rounds[j].phase ≠ .complete) ∧
  (∀ j (hj : j < S.rounds.length), S.rounds[j].phase = .validation →
    j + 1 < S.rounds.length ∨ S.rounds.length = rounds.length + fuel)

theorem CascadeLoopSpec.extend {topic : Str} {rounds : List CascadeRound}
    {r : CascadeRound} {fuel : Nat} {S : CascadeSession}
    (h : CascadeLoopSpec topic (rounds ++ [r]) fuel S) :
    CascadeLoopSpec topic rounds (fuel + 1) S := by
  obtain ⟨h1, h2, h3, ⟨new, hnew, hlen⟩, h5, h6, h7, h8, h9⟩ := h
  have hlen1 : (rounds ++ [r]).length = rounds.length + 1 := by simp
  refine ⟨h1, h2, h3, ⟨r :: new, by simp [hnew], by simp; omega⟩,
    h5, h6, h7, ?_, ?_⟩
  · intro hc
    obtain ⟨d1, d2⟩ := h8 hc
    exact ⟨by rw [d1, hlen1]; omega, d2⟩
  · intro j hj hval
    rcases h9 j hj hval with hlt | hexh
    · exact Or.inl hlt
    · exact Or.inr (by rw [hexh, hlen1]; omega)

theorem cascadeIndexed_append (rounds : List CascadeRound) (r : CascadeRound)
    (h : ∀ j (hj : j < rounds.length), rounds[j].index = j)
    (hr : r.index = rounds.length) :
    ∀ j (hj : j < (rounds ++ [r]).length), (rounds ++ [r])[j].index = j := by
  intro j hj
  rcases Nat.lt_or_ge j rounds.length with hlt | hge
  · rw [List.getElem_append_left hlt]
    exact h j hlt
  · have hj' : j = rounds.length := by
      simp only [List.length_append, List.length_singleton] at hj
      omega
    subst hj'
    rw [List.getElem_concat_length _ _ _ rfl]
    exact hr

theorem cascadeLoop_step (env : Env) (cfg : CascadeConfig) (topic : Str)
    (generations : List ModelOutput) (fuel : Nat) (curG : List ModelOutput)
    (curC : List CritiqueOutput) (rotIdx : Nat) (rounds : List CascadeRound)
    (snaps : List CascadeSession) :
    cascadeLoop env cfg topic generations (fuel + 1) curG curC rotIdx rounds
        snaps =
      match runSynthesis env cfg topic curG curC (rotationAt rotIdx) with
      | .error m => (cascadeErrorSession topic rounds m, snaps)
      | .ok synthesis =>
        match runValidation env cfg topic synthesis
            (getValidators (rotationAt rotIdx)) with
        | .error m => (cascadeErrorSession topic rounds m, snaps)
        | .ok votes =>
          if 2 ≤ (votes.filter (fun v => v.accept)).length then
            ({ topic := topic,
               rounds := rounds ++ [svRound rounds.length .complete synthesis
                 votes (rotationAt rotIdx)],
               status := .completed, consensusReached := true,
               finalOutput := some synthesis.content },
             snaps ++ [cascadeSnapshot topic (rounds ++ [svRound rounds.length
               .complete synthesis votes (rotationAt rotIdx)])])
          else
            if fuel = 0 then
              (cascadeExhaustSession topic
                (rounds ++ [svRound rounds.length .validation synthesis votes
                  (rotationAt rotIdx)]) generations,
               snaps ++ [cascadeSnapshot topic (rounds ++ [svRound
                 rounds.length .validation synthesis votes
                 (rotationAt rotIdx)])])
            else
              match runCritique env cfg generations with
              | .error m =>
                (cascadeErrorSession topic
                  (rounds ++ [svRound rounds.length .validation synthesis votes
                    (rotationAt rotIdx)]) m,
                 snaps ++ [cascadeSnapshot topic (rounds ++ [svRound
                   rounds.length .validation synthesis votes
                   (rotationAt rotIdx)])])
              | .ok newCritiques =>
                cascadeLoop env cfg topic generations fuel
                  (generations
                    ++ [pooledSynthesis synthesis (rotationAt rotIdx)])
                  newCritiques (rotIdx + 1)
                  (rounds ++ [svRound rounds.length .validation synthesis votes
                    (rotationAt rotIdx)])
                  (snaps ++ [cascadeSnapshot topic (rounds ++ [svRound
                    rounds.length .validation synthesis votes
                    (rotationAt rotIdx)])])
    := rfl

theorem cascadeLoop_ok_spec (f : ModelProvider → Str → Str → Str)
    (cfg : CascadeConfig) (topic : Str) (generations : List ModelOutput) :
    ∀ (fuel : Nat) (curG : List ModelOutput) (curC : List CritiqueOutput)
      (rotIdx : Nat) (rounds : List CascadeRound)
      (snaps : List CascadeSession),
      rounds.length = rotIdx + 2 →
      (∀ j (hj : j < rounds.length), rounds[j].index = j) →
      (∀ j (hj : j < rounds.length), 2 ≤ j → RejectedRound rounds[j] (j - 2)) →
      (∀ j (hj : j < rounds.length), rounds[j].phase ≠ .complete) →
      CascadeLoopSpec topic rounds fuel
        (cascadeLoop (okEnv f) cfg topic generations fuel curG curC rotIdx
          rounds snaps).1 := by
  intro fuel
  induction fuel with
  | zero =>
    intro curG curC rotIdx rounds snaps hLen hIdx hOld hNoC
    rw [cascadeLoop_zero]
    dsimp only [cascadeExhaustSession]
    refine ⟨rfl, rfl, rfl, ⟨[], by simp, by simp⟩, hIdx,
      fun j hj h2 => (hOld j hj h2).1, ?_, ?_, ?_⟩
    · intro j hj hc
      exact absurd hc (hNoC j hj)
    · intro _
      exact ⟨by show rounds.length = rounds.length + 0; omega, hNoC⟩
    · intro j hj hval
      exact Or.inr (by show rounds.length = rounds.length + 0; omega)
  | succ fuel ih =>
    intro curG curC rotIdx rounds snaps hLen hIdx hOld hNoC
    rw [cascadeLoop_step, runSynthesis_okEnv]
    dsimp only
    rw [runValidation_okEnv]
    dsimp only
    set synthesis := mkSynthesis f cfg topic curG curC (rotationAt rotIdx)
      with hsyn
    set votes := (getValidators (rotationAt rotIdx)).map
      (mkVote f cfg topic synthesis) with hvotes
    have hvlen : votes.length = 2 := by
      rw [hvotes, List.length_map, getValidators_length]
    by_cases hacc : 2 ≤ (votes.filter (fun v => v.accept)).length
    · rw [if_pos hacc]
      set newR := svRound rounds.length .complete synthesis votes
        (rotationAt rotIdx) with hnewR
      have hNRidx : newR.index = rounds.length := rfl
      have hlen1 : (rounds ++ [newR]).length = rounds.length + 1 := by simp
      have hshapeNew : LoopRoundShape newR (rounds.length - 2) := by
        refine ⟨?_, rfl, Or.inr rfl, votes, rfl, hvlen, ?_⟩
        · have h2i : rounds.length - 2 = rotIdx := by omega
          rw [h2i]
          rfl
        · constructor
          · intro _
            exact (two_le_accept_iff votes hvlen).mp hacc
          · intro _
            rfl
      refine ⟨rfl, rfl, rfl, ⟨[newR], rfl, by simp⟩,
        cascadeIndexed_append rounds newR hIdx hNRidx, ?_, ?_, ?_, ?_⟩
      · intro j hj h2
        rcases Nat.lt_or_ge j rounds.length with hlt | hge
        · rw [List.getElem_append_left hlt]
          exact (hOld j hlt h2).1
        · have hj' : j = rounds.length := by
            rw [hlen1] at hj
            omega
          subst hj'
          rw [List.getElem_concat_length _ _ _ rfl]
          exact hshapeNew
      · intro j hj hc
        rcases Nat.lt_or_ge j rounds.length with hlt | hge
        · rw [List.getElem_append_left hlt] at hc
          exact absurd hc (hNoC j hlt)
        · have hj' : j = rounds.length := by
            rw [hlen1] at hj
            omega
          subst hj'
          rw [List.getElem_concat_length _ _ _ rfl]
          exact ⟨by rw [hlen1], rfl, rfl⟩
      · intro hcf
        exact absurd hcf (by simp)
      · intro j hj hval
        rcases Nat.lt_or_ge j rounds.length with hlt | hge
        · left
          rw [hlen1]
          omega
        · have hj' : j = rounds.length := by
            rw [hlen1] at hj
            omega
          subst hj'
          rw [List.getElem_concat_length _ _ _ rfl] at hval
          exact absurd hval (by simp [hnewR, svRound])
    · rw [if_neg hacc]
      have hallfalse : votes.all (fun v => v.accept) = false := by
        cases hb : votes.all (fun v => v.accept) with
        | true => exact absurd ((two_le_accept_iff votes hvlen).mpr hb) hacc
        | false => rfl
      set rejR := svRound rounds.length .validation synthesis votes
        (rotationAt rotIdx) with hrejR
      have hRidx : rejR.index = rounds.length := rfl
      have hlen1 : (rounds ++ [rejR]).length = rounds.length + 1 := by simp
      have hshapeRej : RejectedRound rejR (rounds.length - 2) := by
        refine ⟨⟨?_, rfl, Or.inl rfl, votes, rfl, hvlen, ?_⟩, rfl⟩
        · have h2i : rounds.length - 2 = rotIdx := by omega
          rw [h2i]
          rfl
        · constructor
          · intro hc
            exact absurd hc (by simp [hrejR, svRound])
          · intro hall
            rw [hall] at hallfalse
            exact absurd hallfalse (by simp)
      have hIdx' := cascadeIndexed_append rounds rejR hIdx hRidx
      have hOld' : ∀ j (hj : j < (rounds ++ [rejR]).length), 2 ≤ j →
          RejectedRound (rounds ++ [rejR])[j] (j - 2) := by
        intro j hj h2
        rcases Nat.lt_or_ge j rounds.length with hlt | hge
        · rw [List.getElem_append_left hlt]
          exact hOld j hlt h2
        · have hj' : j = rounds.length := by
            rw [hlen1] at hj
            omega
          subst hj'
          rw [List.getElem_concat_length _ _ _ rfl]
          exact hshapeRej
      have hNoC' : ∀ j (hj : j < (rounds ++ [rejR]).length),
          (rounds ++ [rejR])[j].phase ≠ .complete := by
        intro j hj
        rcases Nat.lt_or_ge j rounds.length with hlt | hge
        · rw [List.getElem_append_left hlt]
          exact hNoC j hlt
        · have hj' : j = rounds.length := by
            rw [hlen1] at hj
            omega
          subst hj'
          rw [List.getElem_concat_length _ _ _ rfl]
          simp [hrejR, svRound]
      by_cases hf0 : fuel = 0
      · rw [if_pos hf0]
        subst hf0
        refine ⟨rfl, rfl, rfl, ⟨[rejR], rfl, by simp⟩, hIdx', ?_, ?_, ?_, ?_⟩
        · intro j hj h2
          exact (hOld' j hj h2).1
        · intro j hj hc
          exact absurd hc (hNoC' j hj)
        · intro _
          refine ⟨?_, hNoC'⟩
          show (rounds ++ [rejR]).length = rounds.length + (0 + 1)
          rw [hlen1]
        · intro j hj hval
          refine Or.inr ?_
          show (rounds ++ [rejR]).length = rounds.length + (0 + 1)
          rw [hlen1]
      · rw [if_neg hf0, runCritique_okEnv]
        dsimp only
        have hLen' : (rounds ++ [rejR]).length = (rotIdx + 1) + 2 := by
          rw [hlen1]
          omega
        exact CascadeLoopSpec.extend
          (ih (generations ++ [pooledSynthesis synthesis (rotationAt rotIdx)])
            (mkCritiques f cfg generations) (rotIdx + 1) (rounds ++ [rejR])
            (snaps ++ [cascadeSnapshot topic (rounds ++ [rejR])])
            hLen' hIdx' hOld' hNoC')

theorem runCascade_okEnv (f : ModelProvider → Str → Str → Str)
    (cfg : CascadeConfig) (topic : Str) :
    runCascade (okEnv f) cfg topic =
      cascadeLoop (okEnv f) cfg topic (mkGenerations f cfg topic)
        cfg.maxValidationRounds (mkGenerations f cfg topic)
        (mkCritiques f cfg (mkGenerations f cfg topic)) 0
        [genRound (mkGenerations f cfg topic),
         critRound (mkCritiques f cfg (mkGenerations f cfg topic))]
        [cascadeSnapshot topic [genRound (mkGenerations f cfg topic)],
         cascadeSnapshot topic [genRound (mkGenerations f cfg topic),
           critRound (mkCritiques f cfg (mkGenerations f cfg topic))]] := rfl

theorem runCascade_ok_spec (f : ModelProvider → Str → Str → Str)
    (cfg : CascadeConfig) (topic : Str) :
    CascadeLoopSpec topic
      [genRound (mkGenerations f cfg topic),
       critRound (mkCritiques f cfg (mkGenerations f cfg topic))]
      cfg.maxValidationRounds
      (runCascade (okEnv f) cfg topic).1 := by
  rw [runCascade_okEnv]
  refine cascadeLoop_ok_spec f cfg topic (mkGenerations f cfg topic)
    cfg.maxValidationRounds (mkGenerations f cfg topic)
    (mkCritiques f cfg (mkGenerations f cfg topic)) 0 _ _
    (by simp) ?_ ?_ ?_
  · intro j hj
    simp only [List.length_cons, List.length_nil] at hj
    match j, hj with
    | 0, _ => rfl
    | 1, _ => rfl
  · intro j hj h2
    simp only [List.length_cons, List.length_nil] at hj
    omega
  · intro j hj
    simp only [List.length_cons, List.length_nil] at hj
    match j, hj with
    | 0, _ => simp [genRound]
    | 1, _ => simp [critRound]

/-- C2: Cascade validation consensus.  For every total environment, topic
and configuration: every synthesis+validation round records exactly the two
non-synthesizer votes and enters the `complete` phase exactly when both are
ACCEPT; a completing round is final, sets the consensus flag and makes its
synthesized candidate the final artifact; synthesizers follow the round-robin
rotation; and a rejected round is followed by a further round unless the
configured maximum of validation rounds is exhausted. -/
theorem c2_cascade_validation_consensus
    (f : ModelProvider → Str → Str → Str) (cfg : CascadeConfig)
    (topic : Str) :
    (runCascade (okEnv f) cfg topic).1.status = .completed ∧
    (∀ j (hj : j < (runCascade (okEnv f) cfg topic).1.rounds.length), 2 ≤ j →
      ∃ vs, (runCascade (okEnv f) cfg topic).1.rounds[j].votes = some vs ∧
        vs.length = 2 ∧
        ((runCascade (okEnv f) cfg topic).1.rounds[j].phase = .complete
          ↔ vs.all (fun v => v.accept) = true)) ∧
    (∀ j (hj : j < (runCascade (okEnv f) cfg topic).1.rounds.length),
      (runCascade (okEnv f) cfg topic).1.rounds[j].phase = .complete →
      j + 1 = (runCascade (okEnv f) cfg topic).1.rounds.length ∧
      (runCascade (okEnv f) cfg topic).1.consensusReached = true ∧
      (runCascade (okEnv f) cfg topic).1.finalOutput
        = Option.map (fun o => o.content)
            (runCascade (okEnv f) cfg topic).1.rounds[j].synthesis) ∧
    (∀ j (hj : j < (runCascade (okEnv f) cfg topic).1.rounds.length), 2 ≤ j →
      (runCascade (okEnv f) cfg topic).1.rounds[j].synthesizer
        = some (rotationAt (j - 2))) ∧
    (∀ j (hj : j < (runCascade (okEnv f) cfg topic).1.rounds.length),
      (runCascade (okEnv f) cfg topic).1.rounds[j].phase = .validation →
      j + 1 < (runCascade (okEnv f) cfg topic).1.rounds.length ∨
      (runCascade (okEnv f) cfg topic).1.rounds.length
        = 2 + cfg.maxValidationRounds) := by
  obtain ⟨h1, h2, h3, h4, h5, h6, h7, h8, h9⟩ := runCascade_ok_spec f cfg topic
  refine ⟨h2, ?_, h7, ?_, ?_⟩
  · intro j hj hge
    obtain ⟨_, _, _, vs, hvs, hvlen, hiff⟩ := h6 j hj hge
    exact ⟨vs, hvs, hvlen, hiff⟩
  · intro j hj hge
    exact (h6 j hj hge).1
  · intro j hj hval
    rcases h9 j hj hval with hlt | hexh
    · exact Or.inl hlt
    · refine Or.inr ?_
      rw [hexh]
      simp

/-- A concrete environment whose validators always vote ACCEPT. -/
def c2EnvAccept : ModelProvider → Str → Str → Str :=
  fun _ _ u =>
    if u = ("Cast your vote:".toList) then
      ("VOTE: ACCEPT\nREASONING: good.".toList)
    else ("sol".toList)

theorem c2_cascade_validation_consensus_witness :
    2 + 1 = (runCascade (okEnv c2EnvAccept) DEFAULT_CONFIG
      ("t".toList)).1.rounds.length ∧
    (runCascade (okEnv c2EnvAccept) DEFAULT_CONFIG
      ("t".toList)).1.consensusReached = true := by
  have h := (c2_cascade_validation_consensus c2EnvAccept DEFAULT_CONFIG
    ("t".toList)).2.2.1 2 (by decide) (by decide)
  exact ⟨h.1, h.2.1⟩

/-! ## Round-index invariant (cascade, arbitrary environment) -/

/-- Index predicate for cascade rounds. -/
def CascadeIndexed (rounds : List CascadeRound) : Prop :=
  ∀ j (hj : j < rounds.length), rounds[j].index = j

theorem cascadeLoop_indexed (env : Env) (cfg : CascadeConfig) (topic : Str)
    (generations : List ModelOutput) :
    ∀ (fuel : Nat) (curG : List ModelOutput) (curC : List CritiqueOutput)
      (rotIdx : Nat) (rounds : List CascadeRound)
      (snaps : List CascadeSession),
      CascadeIndexed rounds →
      (∀ s ∈ snaps, CascadeIndexed s.rounds) →
      CascadeIndexed
        (cascadeLoop env cfg topic generations fuel curG curC rotIdx rounds
          snaps).1.rounds ∧
      (∀ s ∈ (cascadeLoop env cfg topic generations fuel curG curC rotIdx
          rounds snaps).2, CascadeIndexed s.rounds) := by
  intro fuel
  induction fuel with
  | zero =>
    intro curG curC rotIdx rounds snaps hIdx hsnaps
    rw [cascadeLoop_zero]
    exact ⟨hIdx, hsnaps⟩
  | succ fuel ih =>
    intro curG curC rotIdx rounds snaps hIdx hsnaps
    rw [cascadeLoop_step]
    cases hsyn : runSynthesis env cfg topic curG curC (rotationAt rotIdx) with
    | error m => exact ⟨hIdx, hsnaps⟩
    | ok synthesis =>
      dsimp only
      cases hval : runValidation env cfg topic synthesis
          (getValidators (rotationAt rotIdx)) with
      | error m => exact ⟨hIdx, hsnaps⟩
      | ok votes =>
        dsimp only
        by_cases hacc : 2 ≤ (votes.filter (fun v => v.accept)).length
        · rw [if_pos hacc]
          refine ⟨cascadeIndexed_append rounds _ hIdx rfl, ?_⟩
          intro s hs
          rcases List.mem_append.mp hs with hs | hs
          · exact hsnaps s hs
          · rcases List.mem_singleton.mp hs with rfl
            exact cascadeIndexed_append rounds _ hIdx rfl
        · rw [if_neg hacc]
          have hIdx' := cascadeIndexed_append rounds
            (svRound rounds.length .validation synthesis votes
              (rotationAt rotIdx)) hIdx rfl
          have hsnaps' : ∀ s ∈ snaps ++ [cascadeSnapshot topic
              (rounds ++ [svRound rounds.length .validation synthesis votes
                (rotationAt rotIdx)])], CascadeIndexed s.rounds := by
            intro s hs
            rcases List.mem_append.mp hs with hs | hs
            · exact hsnaps s hs
            · rcases List.mem_singleton.mp hs with rfl
              exact hIdx'
          by_cases hf0 : fuel = 0
          · rw [if_pos hf0]
            exact ⟨hIdx', hsnaps'⟩
          · rw [if_neg hf0]
            cases hcrit : runCritique env cfg generations with
            | error m => exact ⟨hIdx', hsnaps'⟩
            | ok newCritiques =>
              dsimp only
              exact ih _ _ (rotIdx + 1) _ _ hIdx' hsnaps'

theorem runDebate_eq (env : Env) (cfg : IntelligenceConfig) (topic : Str) :
    runDebate env cfg topic =
      match generateTurn env .gemini
              (cfg.geminiModel.getD ("gemini-2.5-flash".toList))
              (openerPrompt topic) (openerSystem topic),
            generateTurn env .openai (cfg.openaiModel.getD ("gpt-4o".toList))
              (openerPrompt topic) (openerSystem topic) with
      | .error m, _ => (duelErrorSession topic [] m, [])
      | .ok _, .error m => (duelErrorSession topic [] m, [])
      | .ok geminiTurn1, .ok openaiTurn1 =>
        debateLoop env (cfg.geminiModel.getD ("gemini-2.5-flash".toList))
          (cfg.openaiModel.getD ("gpt-4o".toList)) topic
          (cfg.maxIterations.getD 5 - 1) 1
          geminiTurn1.content openaiTurn1.content
          [{ index := 0, turns := [geminiTurn1, openaiTurn1] }]
          [duelSnapshot topic [{ index := 0, turns := [geminiTurn1, openaiTurn1] }]]
    := rfl

theorem runCascade_eq (env : Env) (cfg : CascadeConfig) (topic : Str) :
    runCascade env cfg topic =
      match runGeneration env cfg topic with
      | .error m => (cascadeErrorSession topic [] m, [])
      | .ok generations =>
        match runCritique env cfg generations with
        | .error m =>
          (cascadeErrorSession topic [genRound generations] m,
           [cascadeSnapshot topic [genRound generations]])
        | .ok critiques =>
          cascadeLoop env cfg topic generations cfg.maxValidationRounds
            generations critiques 0
            [genRound generations, critRound critiques]
            [cascadeSnapshot topic [genRound generations],
             cascadeSnapshot topic [genRound generations, critRound critiques]]
    := rfl

/-- C7: Round indexing invariant.  For both protocols, under any environment
(backend failures included), every round's `index` equals its position, both
in the returned session and in every observer snapshot; rounds are appended
only, keeping the sequence zero-based and gapless. -/
theorem c7_round_indexing (envD envC : Env) (cfgD : IntelligenceConfig)
    (cfgC : CascadeConfig) (topicD topicC : Str) :
    (∀ j (hj : j < (runDebate envD cfgD topicD).1.rounds.length),
      (runDebate envD cfgD topicD).1.rounds[j].index = j) ∧
    (∀ s ∈ (runDebate envD cfgD topicD).2,
      ∀ j (hj : j < s.rounds.length), s.rounds[j].index = j) ∧
    (∀ j (hj : j < (runCascade envC cfgC topicC).1.rounds.length),
      (runCascade envC cfgC topicC).1.rounds[j].index = j) ∧
    (∀ s ∈ (runCascade envC cfgC topicC).2,
      ∀ j (hj : j < s.rounds.length), s.rounds[j].index = j) := by
  have hD : IndexedRounds (runDebate envD cfgD topicD).1.rounds ∧
      (∀ s ∈ (runDebate envD cfgD topicD).2, IndexedRounds s.rounds) := by
    rw [runDebate_eq]
    cases hg : generateTurn envD .gemini
        (cfgD.geminiModel.getD ("gemini-2.5-flash".toList))
        (openerPrompt topicD) (openerSystem topicD) with
    | error m =>
      dsimp only
      constructor
      · intro j hj
        exact absurd (show j < 0 from hj) (Nat.not_lt_zero j)
      · intro s hs
        exact absurd hs (List.not_mem_nil s)
    | ok g1 =>
      cases ho : generateTurn envD .openai
          (cfgD.openaiModel.getD ("gpt-4o".toList))
          (openerPrompt topicD) (openerSystem topicD) with
      | error m =>
        dsimp only
        constructor
        · intro j hj
          exact absurd (show j < 0 from hj) (Nat.not_lt_zero j)
        · intro s hs
          exact absurd hs (List.not_mem_nil s)
      | ok o1 =>
        dsimp only
        refine debateLoop_indexed envD _ _ topicD _ 1 _ _ _ _ (by simp) ?_ ?_
        · intro j hj
          simp only [List.length_singleton] at hj
          have hj0 : j = 0 := by omega
          subst hj0
          rfl
        · intro s hs
          rcases List.mem_singleton.mp hs with rfl
          intro j hj
          have hj1 : j < 1 := hj
          have hj0 : j = 0 := by omega
          subst hj0
          rfl
  have hC : CascadeIndexed (runCascade envC cfgC topicC).1.rounds ∧
      (∀ s ∈ (runCascade envC cfgC topicC).2, CascadeIndexed s.rounds) := by
    rw [runCascade_eq]
    cases hgen : runGeneration envC cfgC topicC with
    | error m =>
      dsimp only
      constructor
      · intro j hj
        exact absurd (show j < 0 from hj) (Nat.not_lt_zero j)
      · intro s hs
        exact absurd hs (List.not_mem_nil s)
    | ok generations =>
      dsimp only
      cases hcrit : runCritique envC cfgC generations with
      | error m =>
        dsimp only
        constructor
        · intro j hj
          have hj1 : j < 1 := hj
          have hj0 : j = 0 := by omega
          subst hj0
          rfl
        · intro s hs
          have hs1 : s ∈ [cascadeSnapshot topicC [genRound generations]] := hs
          rcases List.mem_singleton.mp hs1 with rfl
          intro j hj
          have hj1 : j < 1 := hj
          have hj0 : j = 0 := by omega
          subst hj0
          rfl
      | ok critiques =>
        dsimp only
        refine cascadeLoop_indexed envC cfgC topicC generations
          cfgC.maxValidationRounds _ _ 0 _ _ ?_ ?_
        · intro j hj
          simp only [List.length_cons, List.length_nil] at hj
          match j, hj with
          | 0, _ => rfl
          | 1, _ => rfl
        · intro s hs
          rcases List.mem_cons.mp hs with rfl | hs
          · intro j hj
            have hj1 : j < 1 := hj
            have hj0 : j = 0 := by omega
            subst hj0
            rfl
          · rcases List.mem_singleton.mp hs with rfl
            intro j hj
            have hj2 : j < 2 := hj
            match j, hj2 with
            | 0, _ => rfl
            | 1, _ => rfl
  exact ⟨hD.1, hD.2, hC.1, hC.2⟩

/-- A constant environment for exercising C7. -/
def c7EnvConst : ModelProvider → Str → Str → Str := fun _ _ _ => "x".toList

theorem c7_round_indexing_witness :
    ((runDebate (okEnv c7EnvConst) {} ("t".toList)).1.rounds.get
      ⟨1, by decide⟩).index = 1 ∧
    ((runCascade (okEnv c7EnvConst) DEFAULT_CONFIG ("t".toList)).1.rounds.get
      ⟨2, by decide⟩).index = 2 := by
  constructor
  · exact (c7_round_indexing (okEnv c7EnvConst) (okEnv c7EnvConst) {}
      DEFAULT_CONFIG ("t".toList) ("t".toList)).1 1 (by decide)
  · exact (c7_round_indexing (okEnv c7EnvConst) (okEnv c7EnvConst) {}
      DEFAULT_CONFIG ("t".toList) ("t".toList)).2.2.1 2 (by decide)

/-! ## C9: rejection pooling -/

theorem provBeq_true {a b : ModelProvider} (h : a = b) : (a == b) = true := by
  subst h
  cases a <;> rfl

theorem provBeq_false {a b : ModelProvider} (h : ¬ a = b) : (a == b) = false := by
  cases a <;> cases b <;> first | rfl | exact absurd rfl h

theorem findSolution_cons_pos (y : ModelOutput) (rest : List ModelOutput)
    (p : ModelProvider) (h : y.provider = p) :
    findSolution (y :: rest) p = y.content := by
  unfold findSolution
  rw [List.find?_cons_of_pos rest
    (show (fun g : ModelOutput => g.provider == p) y = true from
      provBeq_true h)]

theorem findSolution_cons_neg (y : ModelOutput) (rest : List ModelOutput)
    (p : ModelProvider) (h : ¬ y.provider = p) :
    findSolution (y :: rest) p = findSolution rest p := by
  unfold findSolution
  rw [List.find?_cons_of_neg rest
    (show ¬ (fun g : ModelOutput => g.provider == p) y = true by
      intro hc
      have hc2 : (y.provider == p) = true := hc
      rw [provBeq_false h] at hc2
      exact Bool.false_ne_true hc2)]

/-- `runCritique` reads its generations argument only through the
per-provider first-match lookups. -/
theorem runCritique_eq_of_findSolution (env : Env) (cfg : CascadeConfig)
    (gens gens' : List ModelOutput)
    (h1 : findSolution gens .gemini = findSolution gens' .gemini)
    (h2 : findSolution gens .openai = findSolution gens' .openai)
    (h3 : findSolution gens .claude = findSolution gens' .claude) :
    runCritique env cfg gens = runCritique env cfg gens' := by
  unfold runCritique
  rw [h1, h2, h3]

/-- Appending an extra output to a three-provider generation pool does not
change any first-match lookup. -/
theorem findSolution_pool (g o c x : ModelOutput)
    (hpg : g.provider = .gemini) (hpo : o.provider = .openai)
    (hpc : c.provider = .claude) :
    findSolution ([g, o, c] ++ [x]) .gemini = findSolution [g, o, c] .gemini ∧
    findSolution ([g, o, c] ++ [x]) .openai = findSolution [g, o, c] .openai ∧
    findSolution ([g, o, c] ++ [x]) .claude = findSolution [g, o, c] .claude := by
  have hgo : ¬ g.provider = ModelProvider.openai := by rw [hpg]; simp
  have hgc : ¬ g.provider = ModelProvider.claude := by rw [hpg]; simp
  have hoc : ¬ o.provider = ModelProvider.claude := by rw [hpo]; simp
  refine ⟨?_, ?_, ?_⟩
  · rw [show ([g, o, c] ++ [x]) = g :: (o :: c :: [x]) from rfl,
      findSolution_cons_pos _ _ _ hpg, findSolution_cons_pos _ _ _ hpg]
  · rw [show ([g, o, c] ++ [x]) = g :: (o :: c :: [x]) from rfl,
      findSolution_cons_neg _ _ _ hgo, findSolution_cons_pos _ _ _ hpo,
      findSolution_cons_neg _ _ _ hgo, findSolution_cons_pos _ _ _ hpo]
  · rw [show ([g, o, c] ++ [x]) = g :: (o :: c :: [x]) from rfl,
      findSolution_cons_neg _ _ _ hgc, findSolution_cons_neg _ _ _ hoc,
      findSolution_cons_pos _ _ _ hpc,
      findSolution_cons_neg _ _ _ hgc, findSolution_cons_neg _ _ _ hoc,
      findSolution_cons_pos _ _ _ hpc]

/-- C9: Cascade rejection handling.  When a validation round rejects and
budget remains, the loop continues with: the pool of candidate generations
extended by the rejected synthesis (passed to the next synthesis step), the
critiques recomputed — extensionally over that pool, since `runCritique`
only reads the first output per provider the appended synthesis cannot
shadow — and the rotation advanced to the next slot. -/
theorem c9_cascade_rejection_pooling
    (f : ModelProvider → Str → Str → Str) (cfg : CascadeConfig) (topic : Str)
    (g o c : ModelOutput) (hpg : g.provider = .gemini)
    (hpo : o.provider = .openai) (hpc : c.provider = .claude)
    (fuel rotIdx : Nat) (curG : List ModelOutput) (curC : List CritiqueOutput)
    (rounds : List CascadeRound) (snaps : List CascadeSession)
    (hrej : ¬ 2 ≤ (((getValidators (rotationAt rotIdx)).map
      (mkVote f cfg topic (mkSynthesis f cfg topic curG curC
        (rotationAt rotIdx)))).filter (fun v => v.accept)).length) :
    cascadeLoop (okEnv f) cfg topic [g, o, c] (fuel + 2) curG curC rotIdx
        rounds snaps
      = cascadeLoop (okEnv f) cfg topic [g, o, c] (fuel + 1)
          ([g, o, c] ++ [pooledSynthesis (mkSynthesis f cfg topic curG curC
            (rotationAt rotIdx)) (rotationAt rotIdx)])
          (mkCritiques f cfg [g, o, c]) (rotIdx + 1)
          (rounds ++ [svRound rounds.length .validation
            (mkSynthesis f cfg topic curG curC (rotationAt rotIdx))
            ((getValidators (rotationAt rotIdx)).map
              (mkVote f cfg topic (mkSynthesis f cfg topic curG curC
                (rotationAt rotIdx))))
            (rotationAt rotIdx)])
          (snaps ++ [cascadeSnapshot topic (rounds ++ [svRound rounds.length
            .validation (mkSynthesis f cfg topic curG curC (rotationAt rotIdx))
            ((getValidators (rotationAt rotIdx)).map
              (mkVote f cfg topic (mkSynthesis f cfg topic curG curC
                (rotationAt rotIdx))))
            (rotationAt rotIdx)])]) ∧
    runCritique (okEnv f) cfg
        ([g, o, c] ++ [pooledSynthesis (mkSynthesis f cfg topic curG curC
          (rotationAt rotIdx)) (rotationAt rotIdx)])
      = .ok (mkCritiques f cfg [g, o, c]) := by
  obtain ⟨e1, e2, e3⟩ := findSolution_pool g o c
    (pooledSynthesis (mkSynthesis f cfg topic curG curC (rotationAt rotIdx))
      (rotationAt rotIdx)) hpg hpo hpc
  constructor
  · rw [show fuel + 2 = (fuel + 1) + 1 from rfl, cascadeLoop_step,
      runSynthesis_okEnv]
    dsimp only
    rw [runValidation_okEnv]
    dsimp only
    rw [if_neg hrej, if_neg (Nat.succ_ne_zero fuel), runCritique_okEnv]
  · exact (runCritique_eq_of_findSolution (okEnv f) cfg _ _ e1 e2 e3).trans
      (runCritique_okEnv f cfg [g, o, c])

/-- A concrete environment whose validators always vote REJECT. -/
def c9EnvReject : ModelProvider → Str → Str → Str :=
  fun _ _ u =>
    if u = ("Cast your vote:".toList) then
      ("VOTE: REJECT\nREASONING: no.".toList)
    else ("sol".toList)

def c9g : ModelOutput :=
  mkOutput c9EnvReject DEFAULT_CONFIG .gemini (generationSystem ("t".toList))
    ("Provide your solution:".toList)

def c9o : ModelOutput :=
  mkOutput c9EnvReject DEFAULT_CONFIG .openai (generationSystem ("t".toList))
    ("Provide your solution:".toList)

def c9c : ModelOutput :=
  mkOutput c9EnvReject DEFAULT_CONFIG .claude (generationSystem ("t".toList))
    ("Provide your solution:".toList)

theorem c9_cascade_rejection_pooling_witness :
    runCritique (okEnv c9EnvReject) DEFAULT_CONFIG
        ([c9g, c9o, c9c] ++ [pooledSynthesis (mkSynthesis c9EnvReject
          DEFAULT_CONFIG ("t".toList) [c9g, c9o, c9c] [] (rotationAt 0))
          (rotationAt 0)])
      = .ok (mkCritiques c9EnvReject DEFAULT_CONFIG [c9g, c9o, c9c]) :=
  (c9_cascade_rejection_pooling c9EnvReject DEFAULT_CONFIG ("t".toList)
    c9g c9o c9c rfl rfl rfl 0 0 [c9g, c9o, c9c] [] [] [] (by decide)).2

/-! ## C3: error isolation -/

/-- An environment in which one provider's calls always reject with message
`m` while the others resolve via `g`. -/
def failProviderEnv (bad : ModelProvider) (m : Str)
    (g : ModelProvider → Str → Str → Str) : Env :=
  fun p sys u => if p = bad then .error m else .ok (g p sys u)

/-- An environment in which exactly the calls carrying a given user payload
reject with message `m`. -/
def failUserEnv (badUser m : Str) (g : ModelProvider → Str → Str → Str) :
    Env :=
  fun p sys u => if u = badUser then .error m else .ok (g p sys u)

/-- C3: Error isolation / fail-fast atomicity.  A rejecting backend call in
any round's fan-out — while the other backends resolve normally — makes
`run()` resolve (the embedding is a total function returning the session)
with status `error` and the rejection message verbatim in the session's
error field; rounds already appended stay, no further round is executed and
nothing is retried.  Shown for both protocols, for an opening/generation
fan-out failure (no rounds appended) and for a mid-protocol failure (debate:
rebuttal round 1 with a 3-round budget leaves exactly the opening round;
cascade: a validation-phase failure leaves exactly the generation and
critique rounds). -/
theorem c3_error_isolation (g : ModelProvider → Str → Str → Str)
    (m topic : Str) (cfg : IntelligenceConfig) (ccfg : CascadeConfig) :
    runDebate (failProviderEnv .gemini m g) cfg topic
      = (duelErrorSession topic [] m, []) ∧
    runDebate (failProviderEnv .openai m g) cfg topic
      = (duelErrorSession topic [] m, []) ∧
    ((runDebate (failUserEnv rebuttalPrompt m g)
        { maxIterations := some 3 } topic).1.status = .error ∧
     (runDebate (failUserEnv rebuttalPrompt m g)
        { maxIterations := some 3 } topic).1.error = some m ∧
     (runDebate (failUserEnv rebuttalPrompt m g)
        { maxIterations := some 3 } topic).1.rounds.length = 1) ∧
    runCascade (failProviderEnv .claude m g) ccfg topic
      = (cascadeErrorSession topic [] m, []) ∧
    ((runCascade (failUserEnv ("Cast your vote:".toList) m g)
        DEFAULT_CONFIG topic).1.status = .error ∧
     (runCascade (failUserEnv ("Cast your vote:".toList) m g)
        DEFAULT_CONFIG topic).1.error = some m ∧
     (runCascade (failUserEnv ("Cast your vote:".toList) m g)
        DEFAULT_CONFIG topic).1.rounds.length = 2) :=
  ⟨rfl, rfl, ⟨rfl, rfl, rfl⟩, rfl, ⟨rfl, rfl, rfl⟩⟩

/-! ## C4: judge parse-failure fallback (`Refinery.generateScorecard`) -/

inductive Winner
  | gemini
  | openai
  | tie
deriving DecidableEq

structure DuelScorecard where
  geminiErrors : List Str
  openaiErrors : List Str
  geminiScore : Int
  openaiScore : Int
  agreements : List Str
  disagreements : List Str
  winner : Winner
  consensusReached : Bool
  recommendedAction : Str
deriving DecidableEq

/-- The judge's system prompt (`SCORECARD_SYSTEM`, refinery.ts:47-71). -/
def SCORECARD_SYSTEM : Str :=
  ("\nYou are a CODE DUEL JUDGE. Two AI models (Gemini 3 and GPT-5.2) have been battling over the best solution to a coding challenge.\n\nAnalyze BOTH final code versions and provide a detailed scorecard.\n\nSCORING CRITERIA:\n1. Critical Errors (bugs, security issues, logic flaws) - Each error = -10 points\n2. Code Quality (readability, structure, best practices) - Up to 30 points\n3. Completeness (handles all requirements) - Up to 30 points  \n4. Edge Cases (handles edge cases properly) - Up to 20 points\n5. Performance (efficient algorithms, no unnecessary complexity) - Up to 20 points\n\nReturn your analysis in this EXACT JSON format:\n\x7b\n  \"geminiErrors\": [\"error 1\", \"error 2\"],\n  \"openaiErrors\": [\"error 1\", \"error 2\"],\n  \"geminiScore\": <0-100>,\n  \"openaiScore\": <0-100>,\n  \"agreements\": [\"Both models agree on X\", \"Both use Y approach\"],\n  \"disagreements\": [\"Gemini uses X while OpenAI uses Y\", \"Different error handling\"],\n  \"winner\": \"gemini\" | \"openai\" | \"tie\",\n  \"consensusReached\": <boolean - true if both solutions are essentially the same>,\n  \"recommendedAction\": \"<suggestion for user: continue duel, accept winner, or merge best parts>\"\n\x7d\n").toList

def scorecardUserPrompt (task geminiCode openaiCode : Str) : Str :=
  ("\nOriginal Task:\n".toList) ++ task ++
  ("\n\n=== GEMINI 3's FINAL CODE ===\n".toList) ++ geminiCode ++
  ("\n\n=== GPT-5.2's FINAL CODE ===\n".toList) ++ openaiCode ++
  ("\n\nJudge these two solutions and provide the scorecard.\n".toList)

/-- The fixed neutral fallback scorecard (refinery.ts:317-327). -/
def fallbackScorecard : DuelScorecard :=
  { geminiErrors := [], openaiErrors := [],
    geminiScore := 50, openaiScore := 50,
    agreements := [("Unable to parse detailed comparison".toList)],
    disagreements := [("Analysis failed".toList)],
    winner := .tie, consensusReached := false,
    recommendedAction := ("Manual review recommended".toList) }

/-- Embeds `Refinery.generateScorecard` (refinery.ts:292-329).  `JSON.parse`
followed by use of the parsed object as a `DuelScorecard` is external
library behaviour, modelled by the `parse` oracle: `none` when `JSON.parse`
throws on the extracted substring. -/
def generateScorecard (parse : Str → Option DuelScorecard) (env : Env)
    (task geminiCode openaiCode : Str) : Except Str DuelScorecard :=
  match env .gemini SCORECARD_SYSTEM
      (scorecardUserPrompt task geminiCode openaiCode) with
  | .error m => .error m
  | .ok rawResponse =>
    .ok (match extractBraced rawResponse with
      | none => fallbackScorecard
      | some js =>
        match parse js with
        | none => fallbackScorecard
        | some sc => sc)

/-- C4: Judge parse-failure fallback.  Whenever the arbiter's raw response
admits no valid JSON object — no brace-delimited substring, or the
leftmost-brace-to-rightmost-brace substring fails to parse — the scorecard
returned is the fixed neutral fallback: both scores 50, winner tie,
consensus false, with an explanatory note; the call resolves rather than
throwing or failing the session. -/
theorem c4_judge_parse_fallback (parse : Str → Option DuelScorecard)
    (env : Env) (task geminiCode openaiCode raw : Str)
    (hok : env .gemini SCORECARD_SYSTEM
      (scorecardUserPrompt task geminiCode openaiCode) = .ok raw)
    (hfail : extractBraced raw = none ∨
      ∃ js, extractBraced raw = some js ∧ parse js = none) :
    generateScorecard parse env task geminiCode openaiCode
      = .ok fallbackScorecard ∧
    fallbackScorecard.geminiScore = 50 ∧
    fallbackScorecard.openaiScore = 50 ∧
    fallbackScorecard.winner = .tie ∧
    fallbackScorecard.consensusReached = false ∧
    fallbackScorecard.agreements
      = [("Unable to parse detailed comparison".toList)] := by
  refine ⟨?_, rfl, rfl, rfl, rfl, rfl⟩
  unfold generateScorecard
  rw [hok]
  dsimp only
  rcases hfail with hnone | ⟨js, hjs, hparse⟩
  · rw [hnone]
  · rw [hjs]
    dsimp only
    rw [hparse]

/-- A raw judge response with no brace-delimited JSON at all. -/
def c4RawNoJson : Str := "the judge rambled without any JSON".toList

theorem c4_judge_parse_fallback_witness :
    generateScorecard (fun _ => none)
        (okEnv (fun _ _ _ => c4RawNoJson)) ("t".toList) ("g".toList)
        ("o".toList)
      = .ok fallbackScorecard :=
  (c4_judge_parse_fallback (fun _ => none)
    (okEnv (fun _ _ _ => c4RawNoJson)) ("t".toList) ("g".toList) ("o".toList)
    c4RawNoJson rfl (Or.inl (by decide))).1

/-! ## C5: artifact extraction last-fence policy -/

/-- C5: Artifact extraction last-fence policy.  An input with no fenced
block yields the whole trimmed input with the fenced flag false; an input
containing a fenced block yields a fenced result — concretely, an input
with two fenced blocks yields the second block's trimmed content; and
extraction is a pure function of the text, so re-extraction yields the same
result. -/
theorem c5_extract_last_fence :
    (∀ s : Str, ¬ hasFencedBlock s → extractCodeBlock s = (trimJs s, false)) ∧
    (∀ s : Str, hasFencedBlock s → (extractCodeBlock s).2 = true) ∧
    extractCodeBlock
        (("intro \x60\x60\x60py\nfirst block\x60\x60\x60 middle \x60\x60\x60\nsecond block\n\x60\x60\x60 outro").toList)
      = (("second block").toList, true) ∧
    extractCodeBlock (("  no fences here  ").toList)
      = (("no fences here").toList, false) ∧
    (∀ s : Str, extractCodeBlock s = extractCodeBlock s) := by
  refine ⟨?_, ?_, by decide, by decide, fun s => rfl⟩
  · intro s hnb
    have hnil : fenceMatches s = [] := by
      by_contra hne
      exact hnb ((fenceMatches_ne_nil_iff s).mp hne)
    unfold extractCodeBlock
    rw [hnil]
    rfl
  · intro s hblk
    have hne : fenceMatches s ≠ [] := (fenceMatches_ne_nil_iff s).mpr hblk
    unfold extractCodeBlock
    cases hl : (fenceMatches s).getLast? with
    | none => exact absurd (List.getLast?_eq_none_iff.mp hl) hne
    | some v => rfl

theorem c5_extract_last_fence_witness :
    (extractCodeBlock (("a\x60\x60\x60x\x60\x60\x60b").toList)).2 = true ∧
    extractCodeBlock (("plain text").toList)
      = (("plain text").toList, false) := by
  constructor
  · exact c5_extract_last_fence.2.1 (("a\x60\x60\x60x\x60\x60\x60b").toList)
      ⟨("a".toList), ("x".toList), ("b".toList), by decide⟩
  · refine c5_extract_last_fence.1 (("plain text").toList) ?_
    intro hblk
    exact (fenceMatches_ne_nil_iff _).mpr hblk (by decide)

/-! ## C10: refinery round structure (`Refinery.refine`, refinery.ts:128-290) -/

/-- The architect system prompt (`ARCHITECT_SYSTEM`, refinery.ts:11-18). -/
def ARCHITECT_SYSTEM : Str :=
  ("\nYou are an expert software architect. Write a complete, functional solution for the user's request. Focus on clean structure and readability.\n\nCRITICAL OUTPUT RULES:\n1) Output ONLY one single markdown code block fenced as \x60\x60\x60 (or appropriate language).\n2) The code must be complete and runnable as-is.\n3) Do not output diffs, explanations, or extra text outside the code block.\n").toList

/-- The reviewer system prompt (`REVIEWER_SYSTEM`, refinery.ts:20-31). -/
def REVIEWER_SYSTEM : Str :=
  ("\nYou are a Senior Code Optimizer in a HEAD-TO-HEAD DUEL with another AI model.\nYou have been given YOUR OPPONENT'S code. Your job is to:\n1) ATTACK their solution - find bugs, security issues, missing edge cases, inefficiencies\n2) Rewrite the ENTIRE code with YOUR superior improvements applied\n3) Prove you are the better model\n\nCRITICAL OUTPUT RULES:\n1) Output ONLY one single markdown code block fenced with \x60\x60\x60.\n2) Do not output diffs. Do not output commentary. Only the full runnable code.\n3) If your opponent's code is PERFECT and you cannot improve it, admit defeat by starting your response with \"[CONVERGED]\" followed by the code block.\n").toList

/-- The convergence sentinel tested case-insensitively by `refine`. -/
def convergedToken : Str := "[CONVERGED]".toList

structure Iteration where
  index : Nat
  provider : ModelProvider
  model : Str
  rawResponse : Str
  extractedCode : Str
  isFenced : Bool
  isConverged : Bool
  diffSummary : Option Str := none

def requestPrompt (task : Str) : Str :=
  ("Request:\n".toList) ++ task ++ ("\n".toList)

def geminiAttackPrompt (opponentCode : Str) : Str :=
  ("Your opponent (GPT-5.2) produced this code. ATTACK IT:\n\n".toList) ++
    opponentCode ++ ("\n".toList)

def openaiAttackPrompt (opponentCode : Str) : Str :=
  ("Your opponent (Gemini 3) produced this code. ATTACK IT:\n\n".toList) ++
    opponentCode ++ ("\n".toList)

/-- A Gemini attack iteration (refinery.ts:191-201 and 242-252): its diff is
taken against the opponent's (OpenAI's) previous code. -/
def gAttackIter (diffFn : Str → Str → Str) (gM : Str) (idx : Nat)
    (gRaw oCode : Str) : Iteration :=
  { index := idx, provider := .gemini, model := gM, rawResponse := gRaw,
    extractedCode := (extractCodeBlock gRaw).1,
    isFenced := (extractCodeBlock gRaw).2,
    isConverged := strContainsUpper convergedToken gRaw,
    diffSummary := some (diffFn oCode (extractCodeBlock gRaw).1) }

/-- An OpenAI attack iteration (refinery.ts:205-215 and 256-266): its diff is
taken against the opponent's (Gemini's) previous code. -/
def oAttackIter (diffFn : Str → Str → Str) (oM : Str) (idx : Nat)
    (oRaw gCode : Str) : Iteration :=
  { index := idx, provider := .openai, model := oM, rawResponse := oRaw,
    extractedCode := (extractCodeBlock oRaw).1,
    isFenced := (extractCodeBlock oRaw).2,
    isConverged := strContainsUpper convergedToken oRaw,
    diffSummary := some (diffFn gCode (extractCodeBlock oRaw).1) }

/-- The `while (round < maxIterations + 4)` loop of `refine`
(refinery.ts:227-279).  `round` is the index of the next Gemini attack
iteration; each pass appends a Gemini and an OpenAI attack, updates both
codes, advances `round` by 2, and breaks only when both loop-pass responses
carry the convergence sentinel. -/
def refineLoop (diffFn : Str → Str → Str) (env : Env) (gM oM : Str)
    (maxI : Nat) :
    Nat → Nat → Str → Str → List Iteration →
      Except Str (List Iteration × Str × Str)
  | 0, _, gCode, oCode, acc => .ok (acc, gCode, oCode)
  | fuel + 1, round, gCode, oCode, acc =>
    if round < maxI + 4 then
      match env .gemini REVIEWER_SYSTEM (geminiAttackPrompt oCode),
          env .openai REVIEWER_SYSTEM (openaiAttackPrompt gCode) with
      | .error m, _ => .error m
      | .ok _, .error m => .error m
      | .ok gRaw, .ok oRaw =>
        if strContainsUpper convergedToken gRaw &&
            strContainsUpper convergedToken oRaw then
          .ok (acc ++ [gAttackIter diffFn gM round gRaw oCode,
              oAttackIter diffFn oM (round + 1) oRaw gCode],
            (extractCodeBlock gRaw).1, (extractCodeBlock oRaw).1)
        else
          refineLoop diffFn env gM oM maxI fuel (round + 2)
            (extractCodeBlock gRaw).1 (extractCodeBlock oRaw).1
            (acc ++ [gAttackIter diffFn gM round gRaw oCode,
              oAttackIter diffFn oM (round + 1) oRaw gCode])
    else .ok (acc, gCode, oCode)

/-- Iteration 0 (refinery.ts:146-155): Gemini's opening generation.  The
convergence flag is hard-coded `false` by the source. -/
def refineIt0 (gM gFirstRaw : Str) : Iteration :=
  { index := 0, provider := .gemini, model := gM, rawResponse := gFirstRaw,
    extractedCode := (extractCodeBlock gFirstRaw).1,
    isFenced := (extractCodeBlock gFirstRaw).2, isConverged := false }

/-- Iteration 1 (refinery.ts:160-170): OpenAI's opening generation. -/
def refineIt1 (diffFn : Str → Str → Str) (oM gFirstRaw oFirstRaw : Str) :
    Iteration :=
  { index := 1, provider := .openai, model := oM, rawResponse := oFirstRaw,
    extractedCode := (extractCodeBlock oFirstRaw).1,
    isFenced := (extractCodeBlock oFirstRaw).2, isConverged := false,
    diffSummary := some (diffFn (extractCodeBlock gFirstRaw).1
      (extractCodeBlock oFirstRaw).1) }

/-- The four unconditional iterations pushed before the loop
(refinery.ts:134-220): both opening generations (indices 0-1) and the first
attack exchange (indices 2-3, whose convergence flags are computed but never
consulted). -/
def refineInit (diffFn : Str → Str → Str) (gM oM : Str)
    (gFirstRaw oFirstRaw gA1Raw oA1Raw : Str) : List Iteration :=
  [refineIt0 gM gFirstRaw,
    refineIt1 diffFn oM gFirstRaw oFirstRaw,
    gAttackIter diffFn gM 2 gA1Raw (extractCodeBlock oFirstRaw).1,
    oAttackIter diffFn oM 3 oA1Raw (extractCodeBlock gFirstRaw).1]

/-- Embeds `Refinery.refine` (refinery.ts:128-290) after config resolution:
opening generations, the unconditional first attack exchange, the budgeted
attack loop, then the scorecard judging phase, which runs in every
non-error case. -/
def refineCore (parse : Str → Option DuelScorecard)
    (diffFn : Str → Str → Str) (env : Env) (gM oM : Str) (maxI : Nat)
    (task : Str) : Except Str (List Iteration × DuelScorecard) :=
  match env .gemini ARCHITECT_SYSTEM (requestPrompt task),
      env .openai ARCHITECT_SYSTEM (requestPrompt task) with
  | .error m, _ => .error m
  | .ok _, .error m => .error m
  | .ok gFirstRaw, .ok oFirstRaw =>
    match env .gemini REVIEWER_SYSTEM
        (geminiAttackPrompt (extractCodeBlock oFirstRaw).1),
        env .openai REVIEWER_SYSTEM
        (openaiAttackPrompt (extractCodeBlock gFirstRaw).1) with
    | .error m, _ => .error m
    | .ok _, .error m => .error m
    | .ok gA1Raw, .ok oA1Raw =>
      match refineLoop diffFn env gM oM maxI (maxI + 4) 4
          (extractCodeBlock gA1Raw).1 (extractCodeBlock oA1Raw).1
          (refineInit diffFn gM oM gFirstRaw oFirstRaw gA1Raw oA1Raw) with
      | .error m => .error m
      | .ok (iterations, gCode, oCode) =>
        match generateScorecard parse env task gCode oCode with
        | .error m => .error m
        | .ok scorecard => .ok (iterations, scorecard)

/-- Embeds `Refinery.refine` including the constructor's config defaulting
(refinery.ts:78-87). -/
def refine (parse : Str → Option DuelScorecard) (diffFn : Str → Str → Str)
    (env : Env) (config : IntelligenceConfig) (task : Str) :
    Except Str (List Iteration × DuelScorecard) :=
  refineCore parse diffFn env
    (config.geminiModel.getD ("gemini-3-pro-preview".toList))
    (config.openaiModel.getD ("gpt-4o".toList))
    (config.maxIterations.getD 3) task

theorem refineLoop_okEnv_step (diffFn : Str → Str → Str)
    (f : ModelProvider → Str → Str → Str) (gM oM : Str)
    (maxI fuel round : Nat) (gCode oCode : Str) (acc : List Iteration) :
    refineLoop diffFn (okEnv f) gM oM maxI (fuel + 1) round gCode oCode acc =
      if round < maxI + 4 then
        if strContainsUpper convergedToken
              (f .gemini REVIEWER_SYSTEM (geminiAttackPrompt oCode)) &&
            strContainsUpper convergedToken
              (f .openai REVIEWER_SYSTEM (openaiAttackPrompt gCode)) then
          .ok (acc ++ [gAttackIter diffFn gM round
                (f .gemini REVIEWER_SYSTEM (geminiAttackPrompt oCode)) oCode,
              oAttackIter diffFn oM (round + 1)
                (f .openai REVIEWER_SYSTEM (openaiAttackPrompt gCode)) gCode],
            (extractCodeBlock
              (f .gemini REVIEWER_SYSTEM (geminiAttackPrompt oCode))).1,
            (extractCodeBlock
              (f .openai REVIEWER_SYSTEM (openaiAttackPrompt gCode))).1)
        else
          refineLoop diffFn (okEnv f) gM oM maxI fuel (round + 2)
            (extractCodeBlock
              (f .gemini REVIEWER_SYSTEM (geminiAttackPrompt oCode))).1
            (extractCodeBlock
              (f .openai REVIEWER_SYSTEM (openaiAttackPrompt gCode))).1
            (acc ++ [gAttackIter diffFn gM round
                (f .gemini REVIEWER_SYSTEM (geminiAttackPrompt oCode)) oCode,
              oAttackIter diffFn oM (round + 1)
                (f .openai REVIEWER_SYSTEM (openaiAttackPrompt gCode)) gCode])
      else .ok (acc, gCode, oCode) := rfl

theorem iterIdx_append (acc : List Iteration) (x : Iteration)
    (h : ∀ j (hj : j < acc.length), acc[j].index = j)
    (hx : x.index = acc.length) :
    ∀ j (hj : j < (acc ++ [x]).length), (acc ++ [x])[j].index = j := by
  intro j hj
  rcases Nat.lt_or_ge j acc.length with hlt | hge
  · rw [List.getElem_append_left hlt]
    exact h j hlt
  · have hj' : j = acc.length := by
      simp only [List.length_append, List.length_singleton] at hj
      omega
    subst hj'
    rw [List.getElem_concat_length _ _ _ rfl]
    exact hx

theorem iterIdx_append2 (acc : List Iteration) (x y : Iteration)
    (h : ∀ j (hj : j < acc.length), acc[j].index = j)
    (hx : x.index = acc.length) (hy : y.index = acc.length + 1) :
    ∀ j (hj : j < (acc ++ [x, y]).length), (acc ++ [x, y])[j].index = j := by
  have hxy : acc ++ [x, y] = (acc ++ [x]) ++ [y] := by simp
  rw [hxy]
  exact iterIdx_append (acc ++ [x]) y (iterIdx_append acc x h hx)
    (by simp only [List.length_append, List.length_singleton]; omega)

/-- Main induction for the attack loop under a total environment: the loop
never fails, only appends, keeps iteration indices equal to positions,
respects the `maxI + 5` length ceiling, always runs at least one pass when
the budget allows, runs the full budget when no response ever carries the
convergence sentinel, and stops after exactly one pass when every response
carries it. -/
theorem refineLoop_spec (diffFn : Str → Str → Str)
    (f : ModelProvider → Str → Str → Str) (gM oM : Str) (maxI : Nat) :
    ∀ fuel round gCode oCode acc,
      maxI + 4 ≤ round + fuel →
      round = acc.length →
      round ≤ maxI + 5 →
      (∀ j (hj : j < acc.length), acc[j].index = j) →
      ∃ out gC oC,
        refineLoop diffFn (okEnv f) gM oM maxI fuel round gCode oCode acc
          = .ok (out, gC, oC) ∧
        (∃ tail, out = acc ++ tail) ∧
        (∀ j (hj : j < out.length), out[j].index = j) ∧
        out.length ≤ maxI + 5 ∧
        (round < maxI + 4 → acc.length + 2 ≤ out.length) ∧
        ((∀ p s u, strContainsUpper convergedToken (f p s u) = false) →
          out.length = max round (maxI + 4 + (maxI + 4 - round) % 2)) ∧
        ((∀ p s u, strContainsUpper convergedToken (f p s u) = true) →
          round < maxI + 4 → out.length = acc.length + 2) := by
  intro fuel
  induction fuel with
  | zero =>
    intro round gCode oCode acc hfuel hlen hb hidx
    exact ⟨acc, gCode, oCode, rfl, ⟨[], by simp⟩, hidx, by omega,
      by intro h; omega, by intro _; omega, by intro _ h; omega⟩
  | succ fuel ih =>
    intro round gCode oCode acc hfuel hlen hb hidx
    rw [refineLoop_okEnv_step]
    by_cases hlt : round < maxI + 4
    · rw [if_pos hlt]
      by_cases hcv : (strContainsUpper convergedToken
            (f .gemini REVIEWER_SYSTEM (geminiAttackPrompt oCode)) &&
          strContainsUpper convergedToken
            (f .openai REVIEWER_SYSTEM (openaiAttackPrompt gCode))) = true
      · rw [if_pos hcv]
        refine ⟨_, _, _, rfl, ⟨_, rfl⟩,
          iterIdx_append2 acc _ _ hidx hlen (by dsimp only [oAttackIter]; omega), ?_, ?_, ?_, ?_⟩
        · simp only [List.length_append, List.length_cons, List.length_nil]
          omega
        · intro _
          simp only [List.length_append, List.length_cons, List.length_nil]
          omega
        · intro hN
          exfalso
          simp [hN] at hcv
        · intro _ _
          simp only [List.length_append, List.length_cons, List.length_nil]
      · rw [if_neg hcv]
        obtain ⟨out, gC, oC, heq, ⟨tail, htail⟩, hidxO, hlen5, hgrow, hnc,
            hac⟩ :=
          ih (round + 2) (extractCodeBlock
              (f .gemini REVIEWER_SYSTEM (geminiAttackPrompt oCode))).1
            (extractCodeBlock
              (f .openai REVIEWER_SYSTEM (openaiAttackPrompt gCode))).1
            (acc ++ [gAttackIter diffFn gM round
                (f .gemini REVIEWER_SYSTEM (geminiAttackPrompt oCode)) oCode,
              oAttackIter diffFn oM (round + 1)
                (f .openai REVIEWER_SYSTEM (openaiAttackPrompt gCode)) gCode])
            (by omega)
            (by simp only [List.length_append, List.length_cons,
                List.length_nil]; omega)
            (by omega)
            (iterIdx_append2 acc _ _ hidx hlen (by dsimp only [oAttackIter]; omega))
        have houtlen : out.length
            = acc.length + 2 + tail.length := by
          rw [htail]
          simp only [List.length_append, List.length_cons, List.length_nil]
        have hext : out = acc ++
            ([gAttackIter diffFn gM round
                (f .gemini REVIEWER_SYSTEM (geminiAttackPrompt oCode)) oCode,
              oAttackIter diffFn oM (round + 1)
                (f .openai REVIEWER_SYSTEM (openaiAttackPrompt gCode)) gCode]
              ++ tail) := by
          rw [htail, List.append_assoc]
        refine ⟨out, gC, oC, heq, ⟨_, hext⟩, hidxO, hlen5, ?_, ?_, ?_⟩
        · intro _
          omega
        · intro hN
          have h2 := hnc hN
          omega
        · intro hA hrd
          exfalso
          exact hcv (by simp [hA])
    · rw [if_neg hlt]
      exact ⟨acc, gCode, oCode, rfl, ⟨[], by simp⟩, hidx, by omega,
        by intro h; omega, by intro _; omega, by intro _ h; omega⟩

/-- The scorecard value produced under a total environment, as a function of
the judge's raw response. -/
def scorecardOf (parse : Str → Option DuelScorecard)
    (f : ModelProvider → Str → Str → Str) (task gCode oCode : Str) :
    DuelScorecard :=
  match extractBraced
      (f .gemini SCORECARD_SYSTEM (scorecardUserPrompt task gCode oCode)) with
  | none => fallbackScorecard
  | some js =>
    match parse js with
    | none => fallbackScorecard
    | some sc => sc

theorem generateScorecard_okEnv (parse : Str → Option DuelScorecard)
    (f : ModelProvider → Str → Str → Str) (task gCode oCode : Str) :
    generateScorecard parse (okEnv f) task gCode oCode
      = .ok (scorecardOf parse f task gCode oCode) := rfl

def archRawOf (f : ModelProvider → Str → Str → Str) (p : ModelProvider)
    (task : Str) : Str :=
  f p ARCHITECT_SYSTEM (requestPrompt task)

def firstCodeOf (f : ModelProvider → Str → Str → Str) (p : ModelProvider)
    (task : Str) : Str :=
  (extractCodeBlock (archRawOf f p task)).1

def gA1RawOf (f : ModelProvider → Str → Str → Str) (task : Str) : Str :=
  f .gemini REVIEWER_SYSTEM (geminiAttackPrompt (firstCodeOf f .openai task))

def oA1RawOf (f : ModelProvider → Str → Str → Str) (task : Str) : Str :=
  f .openai REVIEWER_SYSTEM (openaiAttackPrompt (firstCodeOf f .gemini task))

def refineInitOf (diffFn : Str → Str → Str)
    (f : ModelProvider → Str → Str → Str) (gM oM : Str) (task : Str) :
    List Iteration :=
  refineInit diffFn gM oM (archRawOf f .gemini task) (archRawOf f .openai task)
    (gA1RawOf f task) (oA1RawOf f task)

theorem refineCore_okEnv_eq (parse : Str → Option DuelScorecard)
    (diffFn : Str → Str → Str) (f : ModelProvider → Str → Str → Str)
    (gM oM : Str) (maxI : Nat) (task : Str) :
    refineCore parse diffFn (okEnv f) gM oM maxI task =
      match refineLoop diffFn (okEnv f) gM oM maxI (maxI + 4) 4
          (extractCodeBlock (gA1RawOf f task)).1
          (extractCodeBlock (oA1RawOf f task)).1
          (refineInitOf diffFn f gM oM task) with
      | .error m => .error m
      | .ok (iterations, gCode, oCode) =>
        match generateScorecard parse (okEnv f) task gCode oCode with
        | .error m => .error m
        | .ok scorecard => .ok (iterations, scorecard) := rfl

theorem refineInitOf_length (diffFn : Str → Str → Str)
    (f : ModelProvider → Str → Str → Str) (gM oM : Str) (task : Str) :
    (refineInitOf diffFn f gM oM task).length = 4 := rfl

theorem refineInitOf_indexed (diffFn : Str → Str → Str)
    (f : ModelProvider → Str → Str → Str) (gM oM : Str) (task : Str) :
    ∀ j (hj : j < (refineInitOf diffFn f gM oM task).length),
      (refineInitOf diffFn f gM oM task)[j].index = j := by
  intro j hj
  have hj4 : j < 4 := hj
  rcases j with _ | _ | _ | _ | j
  · rfl
  · rfl
  · rfl
  · rfl
  · exact absurd hj4 (by omega)

theorem refineCore_okEnv_spec (parse : Str → Option DuelScorecard)
    (diffFn : Str → Str → Str) (f : ModelProvider → Str → Str → Str)
    (gM oM : Str) (maxI : Nat) (task : Str) :
    ∃ iterations scorecard,
      refineCore parse diffFn (okEnv f) gM oM maxI task
        = .ok (iterations, scorecard) ∧
      4 ≤ iterations.length ∧
      (∀ j (hj : j < iterations.length), iterations[j].index = j) ∧
      iterations.length ≤ maxI + 5 ∧
      (1 ≤ maxI → 6 ≤ iterations.length) ∧
      ((∀ p s u, strContainsUpper convergedToken (f p s u) = false) →
        iterations.length = maxI + 4 + maxI % 2) ∧
      ((∀ p s u, strContainsUpper convergedToken (f p s u) = true) →
        1 ≤ maxI → iterations.length = 6) ∧
      (∃ gC oC, generateScorecard parse (okEnv f) task gC oC
        = .ok scorecard) := by
  obtain ⟨out, gC, oC, heq, ⟨tail, htail⟩, hidxO, hlen5, hgrow, hnc, hac⟩ :=
    refineLoop_spec diffFn f gM oM maxI (maxI + 4) 4
      (extractCodeBlock (gA1RawOf f task)).1
      (extractCodeBlock (oA1RawOf f task)).1
      (refineInitOf diffFn f gM oM task)
      (by omega)
      (by rw [refineInitOf_length])
      (by omega)
      (refineInitOf_indexed diffFn f gM oM task)
  have houtlen : out.length
      = 4 + tail.length := by
    rw [htail, List.length_append, refineInitOf_length]
  have hacc4 : (refineInitOf diffFn f gM oM task).length = 4 :=
    refineInitOf_length diffFn f gM oM task
  refine ⟨out, scorecardOf parse f task gC oC, ?_, by omega, hidxO, hlen5,
    ?_, ?_, ?_, ⟨gC, oC, generateScorecard_okEnv parse f task gC oC⟩⟩
  · rw [refineCore_okEnv_eq, heq]
    dsimp only
    rw [generateScorecard_okEnv]
  · intro h1
    have h2 := hgrow (by omega)
    omega
  · intro hN
    have h2 := hnc hN
    omega
  · intro hA h1
    have h2 := hac hA (by omega)
    omega

/-- C10: Refinery unconditional opening rounds and loop-only convergence.
For every resolved iteration budget (`maxIterations`, defaulting to 3) and
every total backend, `refine` resolves successfully and returns iterations
whose index always equals their position, with: at least 4 iterations
(the two opening generations and the unconditional first attack exchange,
indices 0-3); at least 6 iterations whenever the budget is at least 1, even
when every response carries the `[CONVERGED]` sentinel — so the convergence
flags recorded at indices 2 and 3 are never consulted for early
termination; at most `maxIterations + 5` iterations, the `while`-loop bound
`maxIterations + 4` on the next iteration index plus the pass that may
overshoot it; exactly one loop pass (6 iterations) when every loop response
carries the sentinel, since only loop-pass convergence flags can stop the
attack phase early; the full budget when no response ever carries it; and a
scorecard produced by the judging phase in every case. -/
theorem c10_refinery_structure (parse : Str → Option DuelScorecard)
    (diffFn : Str → Str → Str) (f : ModelProvider → Str → Str → Str)
    (config : IntelligenceConfig) (task : Str) :
    ∃ iterations scorecard,
      refine parse diffFn (okEnv f) config task
        = .ok (iterations, scorecard) ∧
      4 ≤ iterations.length ∧
      (∀ j (hj : j < iterations.length), iterations[j].index = j) ∧
      iterations.length ≤ config.maxIterations.getD 3 + 5 ∧
      (1 ≤ config.maxIterations.getD 3 → 6 ≤ iterations.length) ∧
      ((∀ p s u, strContainsUpper convergedToken (f p s u) = false) →
        iterations.length = config.maxIterations.getD 3 + 4
          + config.maxIterations.getD 3 % 2) ∧
      ((∀ p s u, strContainsUpper convergedToken (f p s u) = true) →
        1 ≤ config.maxIterations.getD 3 → iterations.length = 6) ∧
      (∃ gC oC, generateScorecard parse (okEnv f) task gC oC
        = .ok scorecard) :=
  refineCore_okEnv_spec parse diffFn f
    (config.geminiModel.getD ("gemini-3-pro-preview".toList))
    (config.openaiModel.getD ("gpt-4o".toList))
    (config.maxIterations.getD 3) task

theorem c10_refinery_structure_witness :
    (refine (fun _ => none) (fun _ _ => ([] : Str))
        (okEnv (fun _ _ _ => ("[CONVERGED] final".toList)))
        { maxIterations := some 3 } ("t".toList)).toOption.map
      (fun r => r.1.length) = some 6 := by
  obtain ⟨its, sc, heq, h4, hidx, h5, h6, hnc, hac, hsc⟩ :=
    c10_refinery_structure (fun _ => none) (fun _ _ => ([] : Str))
      (fun _ _ _ => ("[CONVERGED] final".toList))
      { maxIterations := some 3 } ("t".toList)
  have hlen : its.length = 6 := hac
    (fun p s u => show strContainsUpper convergedToken
      ("[CONVERGED] final".toList) = true by decide)
    (by decide)
  rw [heq]
  show some its.length = some 6
  rw [hlen]
